import Mathlib

/-!
Verification of the temporal-expression resolver and recurrence engine of the
reminder bot (src/llm_parser.py and src/scheduler.py), via a shallow embedding
in Lean 4.

Datetimes are modelled as records of plain naturals.  The Python `datetime`
type only admits valid field combinations; the predicate `DateTime.Valid`
captures that invariant (years are unbounded above in this model).  The
configured zone is Asia/Tokyo, which has no DST, so arithmetic on wall-clock
fields coincides with instant arithmetic and no offset needs to be modelled.
-/

/-- Gregorian leap-year test (as used by Python's datetime). -/
def isLeap (y : Nat) : Bool :=
  (y % 4 == 0 && y % 100 != 0) || (y % 400 == 0)

/-- Number of days in a month of a given year. -/
def daysInMonth (y m : Nat) : Nat :=
  if m = 2 then (if isLeap y then 29 else 28)
  else if m = 4 ∨ m = 6 ∨ m = 9 ∨ m = 11 then 30
  else 31

/-- Days in the months strictly before month `m` of year `y` (m in 1..12). -/
def daysBeforeMonth (y m : Nat) : Nat :=
  (match m with
   | 1 => 0 | 2 => 31 | 3 => 59 | 4 => 90 | 5 => 120 | 6 => 151
   | 7 => 181 | 8 => 212 | 9 => 243 | 10 => 273 | 11 => 304 | _ => 334)
  + (if 3 ≤ m ∧ isLeap y then 1 else 0)

/-- Days in the years strictly before year `y` (proleptic Gregorian). -/
def daysBeforeYear (y : Nat) : Nat :=
  365 * (y - 1) + (y - 1) / 4 + (y - 1) / 400 - (y - 1) / 100

/-- Rata die of a (year, month, day) triple: 0001-01-01 has number 1. -/
def rd (y m d : Nat) : Nat :=
  daysBeforeYear y + daysBeforeMonth y m + d

/-- A wall-clock datetime in the configured zone, mirroring Python datetime
fields (`usec` is the microsecond field). -/
structure DateTime where
  year : Nat
  month : Nat
  day : Nat
  hour : Nat
  minute : Nat
  second : Nat
  usec : Nat
deriving DecidableEq, Repr

/-- The invariant of the Python datetime type: all fields in range. -/
def DateTime.Valid (t : DateTime) : Prop :=
  1 ≤ t.year ∧ 1 ≤ t.month ∧ t.month ≤ 12 ∧ 1 ≤ t.day ∧
  t.day ≤ daysInMonth t.year t.month ∧
  t.hour ≤ 23 ∧ t.minute ≤ 59 ∧ t.second ≤ 59 ∧ t.usec ≤ 999999

instance (t : DateTime) : Decidable t.Valid := by
  unfold DateTime.Valid; infer_instance

/-- Rata die of a datetime's date part. -/
def DateTime.toRD (t : DateTime) : Nat := rd t.year t.month t.day

/-- Day of week, Monday = 0 .. Sunday = 6 (Python
datetime.weekday; 0001-01-01 is a Monday in the proleptic Gregorian
calendar). -/
def DateTime.weekday (t : DateTime) : Nat := (t.toRD + 6) % 7

/-- Microseconds since the zero point; linearises the field-lexicographic
order, which for valid datetimes is exactly Python's datetime order. -/
def DateTime.toAbsUs (t : DateTime) : Nat :=
  ((((t.toRD * 24 + t.hour) * 60 + t.minute) * 60 + t.second)) * 1000000 + t.usec

/-- Next calendar day, same time fields (the effect of adding
timedelta(days=1) to a valid datetime). -/
def DateTime.succDay (t : DateTime) : DateTime :=
  if t.day < daysInMonth t.year t.month then { t with day := t.day + 1 }
  else if t.month < 12 then { t with month := t.month + 1, day := 1 }
  else { t with year := t.year + 1, month := 1, day := 1 }

/-- Previous calendar day, same time fields (timedelta(days=-1)). -/
def DateTime.predDay (t : DateTime) : DateTime :=
  if 1 < t.day then { t with day := t.day - 1 }
  else if 1 < t.month then
    { t with month := t.month - 1, day := daysInMonth t.year (t.month - 1) }
  else { t with year := t.year - 1, month := 12, day := 31 }

/-- Add `n` days (Python t + timedelta(days=n), n ≥ 0). -/
def addDays : Nat → DateTime → DateTime
  | 0, t => t
  | n + 1, t => addDays n t.succDay

/-- Subtract `n` days (Python t - timedelta(days=n), n ≥ 0). -/
def subDays : Nat → DateTime → DateTime
  | 0, t => t
  | n + 1, t => subDays n t.predDay

/-- Add a possibly negative number of days. -/
def addDaysInt (i : Int) (t : DateTime) : DateTime :=
  if 0 ≤ i then addDays i.toNat t else subDays (-i).toNat t

/-- Add `n` minutes, carrying into hours and days
(Python t + timedelta(minutes=n), n ≥ 0); seconds and microseconds are
unchanged. -/
def addMinutes (n : Nat) (t : DateTime) : DateTime :=
  let tot := t.hour * 60 + t.minute + n
  addDays (tot / 1440) { t with hour := tot % 1440 / 60, minute := tot % 60 }

/-- Python's datetime.replace(hour=h, minute=mi, second=0, microsecond=0):
validates the new fields, raising ValueError (modelled as `.error ()`) when
out of range. -/
def setTime (base : DateTime) (h mi : Nat) : Except Unit DateTime :=
  if h ≤ 23 ∧ mi ≤ 59 then
    .ok { base with hour := h, minute := mi, second := 0, usec := 0 }
  else .error ()

/-- Validity check performed by the Python datetime constructor
(year upper bound not modelled). -/
def dateOk (y m d : Nat) : Prop :=
  1 ≤ y ∧ 1 ≤ m ∧ m ≤ 12 ∧ 1 ≤ d ∧ d ≤ daysInMonth y m

instance (y m d : Nat) : Decidable (dateOk y m d) := by
  unfold dateOk; infer_instance

/-- Year and month of the month after (y, m) — the next_month computation
that recurs throughout the source. -/
def next_month_year (y m : Nat) : Nat × Nat :=
  if m + 1 > 12 then (y + 1, 1) else (y, m + 1)

/-! ### Text utilities (src/llm_parser.py) -/

/-- Full-width digit to ASCII digit; identity on other characters. -/
def normChar (c : Char) : Char :=
  if 0xFF10 ≤ c.toNat ∧ c.toNat ≤ 0xFF19 then Char.ofNat (c.toNat - 0xFF10 + 48) else c

/-- normalize_numbers: map full-width numerals to ASCII. -/
def normalize_numbers (s : String) : String := ⟨s.data.map normChar⟩

/-- Whitespace as matched by regex \s on the texts this bot handles. -/
def isSpaceChar (c : Char) : Bool :=
  c = ' ' || c = '\t' || c = '\n' || c = '\r' ||
  c.toNat = 0xB || c.toNat = 0xC || c.toNat = 0x3000

/-- ASCII digit (inputs are normalized before any matching). -/
def isDigitC (c : Char) : Bool := c.isDigit

/-- Character class [\d,、] of the 第N,N lists. -/
def isDigitCommaC (c : Char) : Bool := c.isDigit || c = ',' || c = '、'

/-- Character class [\d,] of the scheduler's 第N,N regex. -/
def isDigitCommaAsciiC (c : Char) : Bool := c.isDigit || c = ','

/-- WEEKDAY_MAP: weekday kanji to Monday-based index. -/
def weekdayMap (c : Char) : Option Nat :=
  if c = '月' then some 0 else if c = '火' then some 1 else
  if c = '水' then some 2 else if c = '木' then some 3 else
  if c = '金' then some 4 else if c = '土' then some 5 else
  if c = '日' then some 6 else none

/-- WEEKDAY_NAMES list. -/
def WEEKDAY_NAMES : List Char := ['月', '火', '水', '木', '金', '土', '日']

/-- Character class [月火水木金土日]. -/
def isWeekdayC (c : Char) : Bool := (weekdayMap c).isSome

/-- Numeric value of a list of ASCII digits. -/
def digitsVal (ds : List Char) : Nat :=
  ds.foldl (fun a c => a * 10 + (c.toNat - 48)) 0

/-- Skip regex \s* (maximal run). -/
def dropWs (cs : List Char) : List Char := cs.dropWhile isSpaceChar

/-- Match a literal prefix, returning the rest. -/
def litP (pat : List Char) (cs : List Char) : Option (List Char) :=
  if pat.isPrefixOf cs then some (cs.drop pat.length) else none

/-- Greedy match of regex \d+ with its value. -/
def numP (cs : List Char) : Option (Nat × List Char) :=
  let ds := cs.takeWhile isDigitC
  if ds = [] then none else some (digitsVal ds, cs.drop ds.length)

/-- Greedy optional literal. -/
def optP (pat : List Char) (cs : List Char) : List Char :=
  match litP pat cs with
  | some r => r
  | none => cs

/-- re.search: try the matcher at each character position, leftmost first. -/
def searchA {α : Type} (f : List Char → Option α) : List Char → Option α
  | [] => f []
  | c :: cs =>
    match f (c :: cs) with
    | some v => some v
    | none => searchA f cs

/-- Substring containment (the Python `in` operator on str). -/
def containsL (needle : List Char) (hay : List Char) : Bool :=
  (searchA (litP needle) hay).isSome

/-- str.replace(pat, ''): remove every occurrence of a (non-empty) pattern. -/
def removeAllL (pat : List Char) (cs : List Char) : List Char :=
  if h : pat = [] then cs else
    match cs with
    | [] => []
    | c :: rest =>
      if pat.isPrefixOf (c :: rest) then removeAllL pat ((c :: rest).drop pat.length)
      else c :: removeAllL pat rest
termination_by cs.length
decreasing_by
  · simp only [List.length_drop]
    have : 0 < pat.length := List.length_pos.mpr h
    simp only [List.length_cons]
    omega
  · simp

/-! ### A small regex engine for the extract_content substitution patterns.
The patterns use literals, the classes \s \d [\d,、] [月火水木金土日], greedy
star/plus/option, ordered alternation, lookahead, negative lookahead and the
end anchor; matching follows the leftmost, greedy-with-backtracking semantics
of re.sub. -/

inductive Rx where
  | lit : List Char → Rx
  | cls : (Char → Bool) → Rx
  | star : (Char → Bool) → Rx
  | plus : (Char → Bool) → Rx
  | opt : Rx → Rx
  | seq : Rx → Rx → Rx
  | alt : Rx → Rx → Rx
  | look : Rx → Rx
  | nlook : Rx → Rx
  | eos : Rx

/-- Remainders after consuming a prefix of a class run, longest first
(the greedy preference order of a star). -/
def starSplits (p : Char → Bool) : List Char → List (List Char)
  | [] => [[]]
  | c :: cs => if p c then starSplits p cs ++ [c :: cs] else [c :: cs]

/-- Feed each candidate remainder to the continuation until one succeeds. -/
def tryEach (k : List Char → Option (List Char)) : List (List Char) → Option (List Char)
  | [] => none
  | cs :: rest =>
    match k cs with
    | some v => some v
    | none => tryEach k rest

/-- Backtracking matcher in continuation style: `mtch r cs k` tries to match
`r` at the start of `cs` and passes the remainder to `k`, backtracking over
greedy choices when `k` fails. -/
def mtch : Rx → List Char → (List Char → Option (List Char)) → Option (List Char)
  | .lit l, cs, k => if l.isPrefixOf cs then k (cs.drop l.length) else none
  | .cls p, cs, k =>
    match cs with
    | [] => none
    | c :: rest => if p c then k rest else none
  | .star p, cs, k => tryEach k (starSplits p cs)
  | .plus p, cs, k =>
    match cs with
    | [] => none
    | c :: rest => if p c then tryEach k (starSplits p rest) else none
  | .opt r, cs, k =>
    match mtch r cs k with
    | some v => some v
    | none => k cs
  | .seq r1 r2, cs, k => mtch r1 cs (fun rest => mtch r2 rest k)
  | .alt r1 r2, cs, k =>
    match mtch r1 cs k with
    | some v => some v
    | none => mtch r2 cs k
  | .look r, cs, k =>
    match mtch r cs some with
    | some _ => k cs
    | none => none
  | .nlook r, cs, k =>
    match mtch r cs some with
    | some _ => none
    | none => k cs
  | .eos, cs, k =>
    match cs with
    | [] => k []
    | _ :: _ => none

/-- One re.sub pass deleting every (non-overlapping, leftmost, non-empty)
match; every pattern below contains a mandatory literal, so a match always
consumes at least one character and the guard is inert. -/
def rxSubGo (r : Rx) : Nat → List Char → List Char
  | _, [] => []
  | 0, cs => cs
  | fuel + 1, c :: cs =>
    match mtch r (c :: cs) some with
    | some rest =>
      if rest.length ≤ cs.length then rxSubGo r fuel rest else c :: rxSubGo r fuel cs
    | none => c :: rxSubGo r fuel cs

/-- re.sub(r, '', cs). -/
def rxSub (r : Rx) (cs : List Char) : List Char := rxSubGo r cs.length cs

def rxL (s : String) : Rx := .lit s.data

/-- Regex \s* . -/
def rxWs : Rx := .star isSpaceChar

/-- Regex \d* . -/
def rxDigits0 : Rx := .star isDigitC

/-- Regex \d+ . -/
def rxDigits : Rx := .plus isDigitC

def rxSeqL (l : List Rx) : Rx := l.foldr Rx.seq (.lit [])

def rxAltL (l : List Rx) : Rx := l.foldr Rx.alt (.cls (fun _ => false))

/-! ### extract_content substitution patterns (src/llm_parser.py lines 637-693).
Each definition carries the original pattern in a comment; _kara, _p, _p_date
and _t are the building blocks of the source. -/

/-- _kara : から followed by a negative lookahead protecting 揚/拭/し/あげ. -/
def rxKara : Rx :=
  .seq (rxL "から") (.nlook (rxAltL [rxL "揚", rxL "拭", rxL "し", rxL "あげ"]))

/-- _p : optional trailing particle, alternatives in source order. -/
def rxP : Rx :=
  .opt (rxAltL [.seq (rxL "の") rxKara, rxL "のまでに", rxL "のまで", rxL "までに",
    rxL "に", rxKara, rxL "まで", rxL "で", rxL "の"])

/-- _p_date : particle pattern for bare dates, protecting にん/にこ/にが and
でん/でか/でき compounds. -/
def rxPDate : Rx :=
  .opt (rxAltL [rxKara, rxL "までに", rxL "まで",
    .seq (rxL "に") (.nlook (rxAltL [rxL "ん", rxL "こ", rxL "が"])),
    .seq (rxL "で") (.nlook (rxAltL [rxL "ん", rxL "か", rxL "き"]))])

/-- _t : time-context words, longest first. -/
def rxT : Rx :=
  rxAltL [rxL "朝イチ", rxL "朝", rxL "夕方", rxL "深夜", rxL "夜", rxL "昼",
    rxL "正午", rxL "お昼"]

/-- Shared tail の?\s*(_t\s*)?\d*\s*時?\s*半?\s*\d*\s*分?\s*_p of the
recurrence patterns. -/
def rxRepTail : Rx :=
  rxSeqL [.opt (rxL "の"), rxWs, .opt (.seq rxT rxWs), rxDigits0, rxWs,
    .opt (rxL "時"), rxWs, .opt (rxL "半"), rxWs, rxDigits0, rxWs,
    .opt (rxL "分"), rxWs, rxP]

/-- 毎月\s*第\s*[\d,、]+\s*[月火水木金土日]\s*曜?日?\s*の?\s*前日\s*(tail) -/
def ecP1 : Rx :=
  rxSeqL [rxL "毎月", rxWs, rxL "第", rxWs, .plus isDigitCommaC, rxWs,
    .cls isWeekdayC, rxWs, .opt (rxL "曜"), .opt (rxL "日"), rxWs,
    .opt (rxL "の"), rxWs, rxL "前日", rxWs, rxRepTail]

/-- 毎月\s*第\s*[\d,、]+\s*[月火水木金土日]\s*曜?日?\s*(tail) -/
def ecP2 : Rx :=
  rxSeqL [rxL "毎月", rxWs, rxL "第", rxWs, .plus isDigitCommaC, rxWs,
    .cls isWeekdayC, rxWs, .opt (rxL "曜"), .opt (rxL "日"), rxWs, rxRepTail]

/-- 毎月\s*\d+\s*日\s*(tail) -/
def ecP3 : Rx :=
  rxSeqL [rxL "毎月", rxWs, rxDigits, rxWs, rxL "日", rxWs, rxRepTail]

/-- (隔週|毎週)\s*[月火水木金土日]?\s*曜?日?\s*(tail) -/
def ecP4 : Rx :=
  rxSeqL [rxAltL [rxL "隔週", rxL "毎週"], rxWs, .opt (.cls isWeekdayC), rxWs,
    .opt (rxL "曜"), .opt (rxL "日"), rxWs, rxRepTail]

/-- 毎(朝|晩|夕方?|日)\s*(tail) -/
def ecP5 : Rx :=
  rxSeqL [rxL "毎", rxAltL [rxL "朝", rxL "晩", .seq (rxL "夕") (.opt (rxL "方")), rxL "日"],
    rxWs, rxRepTail]

/-- 平日\s*(tail) -/
def ecP6 : Rx := rxSeqL [rxL "平日", rxWs, rxRepTail]

/-- \d+\s*日\s*後\s*_p -/
def ecP7 : Rx := rxSeqL [rxDigits, rxWs, rxL "日", rxWs, rxL "後", rxWs, rxP]

/-- \d+\s*週間?\s*後\s*_p -/
def ecP8 : Rx :=
  rxSeqL [rxDigits, rxWs, rxL "週", .opt (rxL "間"), rxWs, rxL "後", rxWs, rxP]

/-- あと\s*\d+\s*日\s*_p -/
def ecP9 : Rx := rxSeqL [rxL "あと", rxWs, rxDigits, rxWs, rxL "日", rxWs, rxP]

/-- \d+\s*時間\s*半?\s*後\s*_p -/
def ecP10 : Rx :=
  rxSeqL [rxDigits, rxWs, rxL "時間", rxWs, .opt (rxL "半"), rxWs, rxL "後", rxWs, rxP]

/-- \d+\s*分\s*後\s*_p -/
def ecP11 : Rx := rxSeqL [rxDigits, rxWs, rxL "分", rxWs, rxL "後", rxWs, rxP]

/-- あと\s*\d+\s*(分|時間)\s*_p -/
def ecP12 : Rx :=
  rxSeqL [rxL "あと", rxWs, rxDigits, rxWs, rxAltL [rxL "分", rxL "時間"], rxWs, rxP]

/-- 明々?後?日\s*の?\s*_t?\s*\d+\s*時\s*半?\s*\d*\s*分?\s*_p -/
def ecP13 : Rx :=
  rxSeqL [rxL "明", .opt (rxL "々"), .opt (rxL "後"), rxL "日", rxWs, .opt (rxL "の"),
    rxWs, .opt rxT, rxWs, rxDigits, rxWs, rxL "時", rxWs, .opt (rxL "半"), rxWs,
    rxDigits0, rxWs, .opt (rxL "分"), rxWs, rxP]

/-- 今日\s*の?\s*_t?\s*\d+\s*時\s*半?\s*\d*\s*分?\s*_p -/
def ecP14 : Rx :=
  rxSeqL [rxL "今日", rxWs, .opt (rxL "の"), rxWs, .opt rxT, rxWs, rxDigits, rxWs,
    rxL "時", rxWs, .opt (rxL "半"), rxWs, rxDigits0, rxWs, .opt (rxL "分"), rxWs, rxP]

/-- 明々?後?日\s*の?\s*_t\s*_p -/
def ecP15 : Rx :=
  rxSeqL [rxL "明", .opt (rxL "々"), .opt (rxL "後"), rxL "日", rxWs, .opt (rxL "の"),
    rxWs, rxT, rxWs, rxP]

/-- 今日\s*の?\s*_t\s*_p -/
def ecP16 : Rx := rxSeqL [rxL "今日", rxWs, .opt (rxL "の"), rxWs, rxT, rxWs, rxP]

/-- Lookahead (?=\s*(\d|朝|昼|夕|夜|午|から|まで)) guarding a の kept before a
date/time continuation. -/
def rxNoGuard : Rx :=
  .look (.seq rxWs (rxAltL [.cls isDigitC, rxL "朝", rxL "昼", rxL "夕", rxL "夜",
    rxL "午", rxL "から", rxL "まで"]))

/-- 明々?後?日(\s*の(?=...))?\s*_p_date -/
def ecP17 : Rx :=
  rxSeqL [rxL "明", .opt (rxL "々"), .opt (rxL "後"), rxL "日",
    .opt (rxSeqL [rxWs, rxL "の", rxNoGuard]), rxWs, rxPDate]

/-- 今日(\s*の(?=...))?\s*_p_date -/
def ecP18 : Rx :=
  rxSeqL [rxL "今日", .opt (rxSeqL [rxWs, rxL "の", rxNoGuard]), rxWs, rxPDate]

/-- (今|来|再来)週\s*(末|の?\s*[月火水木金土日]\s*曜?日?)?\s*(の?\s*_t)?\s*\d*\s*時?\s*半?\s*_p -/
def ecP19 : Rx :=
  rxSeqL [rxAltL [rxL "今", rxL "来", rxL "再来"], rxL "週", rxWs,
    .opt (rxAltL [rxL "末",
      rxSeqL [.opt (rxL "の"), rxWs, .cls isWeekdayC, rxWs, .opt (rxL "曜"), .opt (rxL "日")]]),
    rxWs, .opt (rxSeqL [.opt (rxL "の"), rxWs, rxT]), rxWs, rxDigits0, rxWs,
    .opt (rxL "時"), rxWs, .opt (rxL "半"), rxWs, rxP]

/-- (次|今度)\s*の?\s*[月火水木金土日]\s*曜?日?\s*(の?\s*_t)?\s*\d*\s*時?\s*半?\s*_p -/
def ecP20 : Rx :=
  rxSeqL [rxAltL [rxL "次", rxL "今度"], rxWs, .opt (rxL "の"), rxWs, .cls isWeekdayC,
    rxWs, .opt (rxL "曜"), .opt (rxL "日"), rxWs,
    .opt (rxSeqL [.opt (rxL "の"), rxWs, rxT]), rxWs, rxDigits0, rxWs,
    .opt (rxL "時"), rxWs, .opt (rxL "半"), rxWs, rxP]

/-- 再来月\s*(末|初|\d+\s*日)?\s*の?\s*(_t\s*)?\d*\s*時?\s*半?\s*\d*\s*分?\s*_p -/
def ecP21 : Rx :=
  rxSeqL [rxL "再来月", rxWs,
    .opt (rxAltL [rxL "末", rxL "初", rxSeqL [rxDigits, rxWs, rxL "日"]]),
    rxWs, rxRepTail]

/-- (今|来)月\s*\d+\s*日\s*の?\s*(_t\s*)?\d*\s*時?\s*半?\s*\d*\s*分?\s*_p -/
def ecP22 : Rx :=
  rxSeqL [rxAltL [rxL "今", rxL "来"], rxL "月", rxWs, rxDigits, rxWs, rxL "日",
    rxWs, rxRepTail]

/-- \d+\s*月\s*\d+\s*日\s*(の?\s*_t)?\s*\d*\s*時?\s*半?\s*\d*\s*分?\s*_p -/
def ecP23 : Rx :=
  rxSeqL [rxDigits, rxWs, rxL "月", rxWs, rxDigits, rxWs, rxL "日", rxWs,
    .opt (rxSeqL [.opt (rxL "の"), rxWs, rxT]), rxWs, rxDigits0, rxWs,
    .opt (rxL "時"), rxWs, .opt (rxL "半"), rxWs, rxDigits0, rxWs,
    .opt (rxL "分"), rxWs, rxP]

/-- (今|来)?月\s*(末|初)?\s*の?\s*_t?\s*\d*\s*時?\s*_p -/
def ecP24 : Rx :=
  rxSeqL [.opt (rxAltL [rxL "今", rxL "来"]), rxL "月", rxWs,
    .opt (rxAltL [rxL "末", rxL "初"]), rxWs, .opt (rxL "の"), rxWs, .opt rxT,
    rxWs, rxDigits0, rxWs, .opt (rxL "時"), rxWs, rxP]

/-- 午前\s*\d+\s*時\s*半?\s*\d*\s*分?\s*_p -/
def ecP25 : Rx :=
  rxSeqL [rxL "午前", rxWs, rxDigits, rxWs, rxL "時", rxWs, .opt (rxL "半"), rxWs,
    rxDigits0, rxWs, .opt (rxL "分"), rxWs, rxP]

/-- 午後\s*\d+\s*時\s*半?\s*\d*\s*分?\s*_p -/
def ecP26 : Rx :=
  rxSeqL [rxL "午後", rxWs, rxDigits, rxWs, rxL "時", rxWs, .opt (rxL "半"), rxWs,
    rxDigits0, rxWs, .opt (rxL "分"), rxWs, rxP]

/-- \d+\s*時\s*半?\s*\d*\s*分?\s*_p -/
def ecP27 : Rx :=
  rxSeqL [rxDigits, rxWs, rxL "時", rxWs, .opt (rxL "半"), rxWs, rxDigits0, rxWs,
    .opt (rxL "分"), rxWs, rxP]

/-- _t(?=\s|に|で|の|から|まで|\d|$)\s*_p -/
def ecP28 : Rx :=
  rxSeqL [rxT,
    .look (rxAltL [.cls isSpaceChar, rxL "に", rxL "で", rxL "の", rxL "から",
      rxL "まで", .cls isDigitC, .eos]),
    rxWs, rxP]

/-- 週末\s*_p -/
def ecP29 : Rx := rxSeqL [rxL "週末", rxWs, rxP]

/-- The ordered pattern list of extract_content. -/
def ecPatterns : List Rx :=
  [ecP1, ecP2, ecP3, ecP4, ecP5, ecP6, ecP7, ecP8, ecP9, ecP10, ecP11, ecP12,
   ecP13, ecP14, ecP15, ecP16, ecP17, ecP18, ecP19, ecP20, ecP21, ecP22, ecP23,
   ecP24, ecP25, ecP26, ecP27, ecP28, ecP29]

/-- re.sub(r'^[のにでへ]\s+', '', content): drop one leading isolated particle
followed by whitespace. -/
def stripLeadParticle : List Char → List Char
  | c :: c2 :: cs =>
    if (c = 'の' ∨ c = 'に' ∨ c = 'で' ∨ c = 'へ') ∧ isSpaceChar c2 then
      (c2 :: cs).dropWhile isSpaceChar
    else c :: c2 :: cs
  | l => l

/-- re.sub(r'\s+', ' ', content): collapse whitespace runs to single spaces. -/
def collapseWs : List Char → List Char
  | [] => []
  | [c] => if isSpaceChar c then [' '] else [c]
  | c :: c2 :: cs =>
    if isSpaceChar c then
      (if isSpaceChar c2 then collapseWs (c2 :: cs) else ' ' :: collapseWs (c2 :: cs))
    else c :: collapseWs (c2 :: cs)

/-- str.strip(). -/
def stripEnds (cs : List Char) : List Char :=
  ((cs.dropWhile isSpaceChar).reverse.dropWhile isSpaceChar).reverse

/-- extract_content: normalize digits, delete each temporal pattern in order,
clean a leading isolated particle, collapse whitespace; fall back to the
original input if nothing is left. -/
def extract_content (userInput : String) : String :=
  let content := ecPatterns.foldl (fun acc p => rxSub p acc) (normalize_numbers userInput).data
  let content := stripLeadParticle content
  let content := stripEnds (collapseWs content)
  let contentS : String := ⟨content⟩
  if contentS = "" then userInput else contentS

/-! ### Search matchers for the parser regexes (src/llm_parser.py).
Each m_ function matches one regex at the start of the text (greedy, with the
captured groups as result); the corresponding search applies it at each
position via searchA.  The regexes' trailing always-matching optional parts
(曜?日? and the like) do not affect match success or groups and are omitted. -/

/-- 午後\s*(\d+)\s*時 -/
def m_gogo_hour (cs : List Char) : Option Nat := do
  let r ← litP "午後".data cs
  let (n, r) ← numP (dropWs r)
  let _ ← litP "時".data (dropWs r)
  pure n

/-- 午前\s*(\d+)\s*時 -/
def m_gozen_hour (cs : List Char) : Option Nat := do
  let r ← litP "午前".data cs
  let (n, r) ← numP (dropWs r)
  let _ ← litP "時".data (dropWs r)
  pure n

/-- (\d+)\s*時 -/
def m_num_ji (cs : List Char) : Option Nat := do
  let (n, r) ← numP cs
  let _ ← litP "時".data (dropWs r)
  pure n

/-- (\d+)\s*時\s*半, capturing the hour -/
def m_ji_han (cs : List Char) : Option Nat := do
  let (n, r) ← numP cs
  let r ← litP "時".data (dropWs r)
  let _ ← litP "半".data (dropWs r)
  pure n

/-- (\d+)\s*時\s*(\d+)\s*分, capturing hour and minute -/
def m_ji_fun (cs : List Char) : Option (Nat × Nat) := do
  let (h, r) ← numP cs
  let r ← litP "時".data (dropWs r)
  let (mi, r) ← numP (dropWs r)
  let _ ← litP "分".data (dropWs r)
  pure (h, mi)

/-- (\d+)\s*時間\s*半\s*後 -/
def m_hours_half_after (cs : List Char) : Option Nat := do
  let (n, r) ← numP cs
  let r ← litP "時間".data (dropWs r)
  let r ← litP "半".data (dropWs r)
  let _ ← litP "後".data (dropWs r)
  pure n

/-- (\d+)\s*時間\s*後 -/
def m_hours_after (cs : List Char) : Option Nat := do
  let (n, r) ← numP cs
  let r ← litP "時間".data (dropWs r)
  let _ ← litP "後".data (dropWs r)
  pure n

/-- (\d+)\s*分\s*後 -/
def m_min_after (cs : List Char) : Option Nat := do
  let (n, r) ← numP cs
  let r ← litP "分".data (dropWs r)
  let _ ← litP "後".data (dropWs r)
  pure n

/-- あと\s*(\d+)\s*分 -/
def m_ato_min (cs : List Char) : Option Nat := do
  let r ← litP "あと".data cs
  let (n, r) ← numP (dropWs r)
  let _ ← litP "分".data (dropWs r)
  pure n

/-- あと\s*(\d+)\s*時間 -/
def m_ato_hours (cs : List Char) : Option Nat := do
  let r ← litP "あと".data cs
  let (n, r) ← numP (dropWs r)
  let _ ← litP "時間".data (dropWs r)
  pure n

/-- (\d+)\s*日\s*後 -/
def m_days_after (cs : List Char) : Option Nat := do
  let (n, r) ← numP cs
  let r ← litP "日".data (dropWs r)
  let _ ← litP "後".data (dropWs r)
  pure n

/-- あと\s*(\d+)\s*日 -/
def m_ato_days (cs : List Char) : Option Nat := do
  let r ← litP "あと".data cs
  let (n, r) ← numP (dropWs r)
  let _ ← litP "日".data (dropWs r)
  pure n

/-- (\d+)\s*週間?\s*後 -/
def m_weeks_after (cs : List Char) : Option Nat := do
  let (n, r) ← numP cs
  let r ← litP "週".data (dropWs r)
  let r := optP "間".data r
  let _ ← litP "後".data (dropWs r)
  pure n

/-- 再来月\s*(\d+)\s*日 -/
def m_sarai_day (cs : List Char) : Option Nat := do
  let r ← litP "再来月".data cs
  let (n, r) ← numP (dropWs r)
  let _ ← litP "日".data (dropWs r)
  pure n

/-- 来月\s*(\d+)\s*日 -/
def m_raigetsu_day (cs : List Char) : Option Nat := do
  let r ← litP "来月".data cs
  let (n, r) ← numP (dropWs r)
  let _ ← litP "日".data (dropWs r)
  pure n

/-- 今月\s*(\d+)\s*日 -/
def m_kongetsu_day (cs : List Char) : Option Nat := do
  let r ← litP "今月".data cs
  let (n, r) ← numP (dropWs r)
  let _ ← litP "日".data (dropWs r)
  pure n

/-- Suffix の?\s*([月火水木金土日]) shared by the weekday-with-qualifier
regexes. -/
def wdAfterNo (r : List Char) : Option Nat :=
  match dropWs (optP "の".data (dropWs r)) with
  | c :: _ => weekdayMap c
  | [] => none

/-- 再来週\s*の?\s*([月火水木金土日]) -/
def m_saraishu_wd (cs : List Char) : Option Nat := do
  let r ← litP "再来週".data cs
  wdAfterNo r

/-- 来週\s*の?\s*([月火水木金土日]) -/
def m_raishu_wd (cs : List Char) : Option Nat := do
  let r ← litP "来週".data cs
  wdAfterNo r

/-- 今週\s*の?\s*([月火水木金土日]) -/
def m_konshu_wd (cs : List Char) : Option Nat := do
  let r ← litP "今週".data cs
  wdAfterNo r

/-- (次|今度)\s*の?\s*([月火水木金土日]) -/
def m_tsugi_wd (cs : List Char) : Option Nat := do
  let r ← (litP "次".data cs).orElse (fun _ => litP "今度".data cs)
  wdAfterNo r

/-- (\d+)\s*月\s*(\d+)\s*日 -/
def m_gatsu_nichi (cs : List Char) : Option (Nat × Nat) := do
  let (mo, r) ← numP cs
  let r ← litP "月".data (dropWs r)
  let (d, r) ← numP (dropWs r)
  let _ ← litP "日".data (dropWs r)
  pure (mo, d)

/-- 毎月\s*(\d+)\s*日 -/
def m_maigetsu_day (cs : List Char) : Option Nat := do
  let r ← litP "毎月".data cs
  let (n, r) ← numP (dropWs r)
  let _ ← litP "日".data (dropWs r)
  pure n

/-- 隔週\s*([月火水木金土日]), capturing the weekday character -/
def m_kakushu_wd (cs : List Char) : Option Char := do
  let r ← litP "隔週".data cs
  match dropWs r with
  | c :: _ => if isWeekdayC c then some c else none
  | [] => none

/-- 毎週\s*([月火水木金土日]), capturing the weekday character -/
def m_maishu_wd (cs : List Char) : Option Char := do
  let r ← litP "毎週".data cs
  match dropWs r with
  | c :: _ => if isWeekdayC c then some c else none
  | [] => none

/-- 毎月\s*第\s*([\d,、]+)\s*([月火水木金土日]) with, when `wantPrev`,
the mandatory continuation 曜?日?\s*の?\s*前日; captures the ordinal-list run
and the weekday character. -/
def m_mai_dai (wantPrev : Bool) (cs : List Char) : Option (List Char × Char) :=
  match litP "毎月".data cs with
  | none => none
  | some r =>
    match litP "第".data (dropWs r) with
    | none => none
    | some r =>
      let r := dropWs r
      let run := r.takeWhile isDigitCommaC
      if run = [] then none
      else
        match dropWs (r.drop run.length) with
        | [] => none
        | c :: rest =>
          if isWeekdayC c then
            if wantPrev then
              let r3 := dropWs (optP "日".data (optP "曜".data (dropWs rest)))
              match litP "前日".data (dropWs (optP "の".data r3)) with
              | some _ => some (run, c)
              | none => none
            else some (run, c)
          else none

/-- re.split(r'[,、]', run) with int() over the non-empty segments. -/
def splitNths (run : List Char) : List Nat :=
  ((run.splitOnP (fun c => c = ',' || c = '、')).filter (fun seg => seg ≠ [])).map digitsVal

/-- extract_hour: pull an hour out of the text, with PM/AM context heuristics
and time-of-day keyword defaults (longer keywords first). -/
def extract_hour (t : List Char) (dflt : Nat) : Nat :=
  match searchA m_gogo_hour t with
  | some h => if h < 12 then h + 12 else h
  | none =>
    match searchA m_gozen_hour t with
    | some h => h
    | none =>
      match searchA m_num_ji t with
      | some h =>
        let isPmContext := containsL "昼".data t || containsL "夕方".data t ||
          containsL "夜".data t || containsL "深夜".data t
        let isAmContext := containsL "朝".data t
        if isPmContext && !isAmContext && (1 ≤ h && h ≤ 11) then h + 12 else h
      | none =>
        if containsL "朝".data t then 8
        else if containsL "正午".data t || containsL "お昼".data t then 12
        else if containsL "昼".data t then 12
        else if containsL "夕方".data t then 17
        else if containsL "深夜".data t then 23
        else if containsL "夜".data t then 20
        else dflt

/-- extract_minute: 30 for X時半, the captured minute for X時Y分, else 0. -/
def extract_minute (t : List Char) : Nat :=
  if (searchA m_ji_han t).isSome then 30
  else
    match searchA m_ji_fun t with
    | some hm => hm.2
    | none => 0

/-- make_time: combine a base date with the time extracted from the text. -/
def make_time (baseDate : DateTime) (t : List Char) (defaultHour : Nat) :
    Except Unit DateTime :=
  setTime baseDate (extract_hour t defaultHour) (extract_minute t)

/-! ### parse_datetime_pattern (src/llm_parser.py lines 299-634).
The source is one ordered if/elif chain over regex searches; it is embedded
below as a tower of branch functions, each falling through to the next, listed
in reverse so that every branch can refer to its successor.  Results:
`.ok (some dt)` a match, `.ok none` no match, `.error ()` an uncaught
ValueError. -/

/-- Year/month two months ahead (the 再来月 computation; the source's while
loop executes at most once for in-range months). -/
def saraigetsuYM (now : DateTime) : Nat × Nat :=
  let m2 := now.month + 2
  if m2 > 12 then (now.year + 1, m2 - 12) else (now.year, m2)

/-- Guarded explicit-day branch body: try datetime(y, m, d) — an invalid
date is a normal no-match — then make_time outside the guard. -/
def guarded_day_branch (text : List Char) (y m d : Nat) :
    Except Unit (Option DateTime) :=
  if dateOk y m d then (make_time ⟨y, m, d, 0, 0, 0, 0⟩ text 9).map some
  else .ok none

/-- X月X日 branch: construct this year's date, roll to next year if the date
has already passed (date comparison only); both constructions are guarded,
make_time is not. -/
def gatsu_nichi_branch (text : List Char) (now : DateTime) (mo d : Nat) :
    Except Unit (Option DateTime) :=
  if dateOk now.year mo d then
    let target : DateTime := ⟨now.year, mo, d, 0, 0, 0, 0⟩
    if target.toRD < now.toRD then
      if dateOk (now.year + 1) mo d then
        (make_time ⟨now.year + 1, mo, d, 0, 0, 0, 0⟩ text 9).map some
      else .ok none
    else (make_time target text 9).map some
  else .ok none

/-- 朝/昼/夕方/夜 stand-alone time words (checked in source dict order),
rolling to tomorrow when the time has passed. -/
def pd_time_words (text : List Char) (now : DateTime) : Except Unit (Option DateTime) :=
  let roll (h : Nat) : Except Unit (Option DateTime) :=
    let result := { now with hour := h, minute := 0, second := 0, usec := 0 }
    .ok (some (if result.toAbsUs ≤ now.toAbsUs then addDays 1 result else result))
  if containsL "朝".data text then roll 8
  else if containsL "昼".data text then roll 12
  else if containsL "夕方".data text then roll 17
  else if containsL "夜".data text then roll 20
  else .ok none

/-- Bare X時 (today or tomorrow), guarded against date-qualifier words. -/
def pd_bare_ji (text : List Char) (now : DateTime) : Except Unit (Option DateTime) :=
  match searchA m_num_ji text with
  | some h =>
    if containsL "明日".data text || containsL "明後日".data text ||
       containsL "来週".data text || containsL "今週".data text ||
       containsL "次の".data text || containsL "月".data text ||
       containsL "今度".data text || containsL "午前".data text ||
       containsL "午後".data text then pd_time_words text now
    else
      match setTime now h 0 with
      | .error e => .error e
      | .ok result =>
        .ok (some (if result.toAbsUs ≤ now.toAbsUs then addDays 1 result else result))
  | none => pd_time_words text now

/-- X時Y分, guarded against date-qualifier words. -/
def pd_ji_fun (text : List Char) (now : DateTime) : Except Unit (Option DateTime) :=
  match searchA m_ji_fun text with
  | some hm =>
    if containsL "明日".data text || containsL "明後日".data text ||
       containsL "来週".data text || containsL "今週".data text ||
       containsL "次の".data text || containsL "月".data text ||
       containsL "今度".data text then pd_bare_ji text now
    else
      match setTime now hm.1 hm.2 with
      | .error e => .error e
      | .ok result =>
        .ok (some (if result.toAbsUs ≤ now.toAbsUs then addDays 1 result else result))
  | none => pd_bare_ji text now

/-- X時半, guarded against date-qualifier words. -/
def pd_ji_han (text : List Char) (now : DateTime) : Except Unit (Option DateTime) :=
  match searchA m_ji_han text with
  | some h =>
    if containsL "明日".data text || containsL "明後日".data text ||
       containsL "来週".data text || containsL "今週".data text ||
       containsL "次の".data text || containsL "月".data text ||
       containsL "今度".data text then pd_ji_fun text now
    else
      match setTime now h 30 with
      | .error e => .error e
      | .ok result =>
        .ok (some (if result.toAbsUs ≤ now.toAbsUs then addDays 1 result else result))
  | none => pd_ji_fun text now

/-- 午前X時. -/
def pd_gozen (text : List Char) (now : DateTime) : Except Unit (Option DateTime) :=
  match searchA m_gozen_hour text with
  | some h =>
    match setTime now h (extract_minute text) with
    | .error e => .error e
    | .ok result =>
      .ok (some (if result.toAbsUs ≤ now.toAbsUs then addDays 1 result else result))
  | none => pd_ji_han text now

/-- 午後X時 (hour below 12 shifted to PM). -/
def pd_gogo (text : List Char) (now : DateTime) : Except Unit (Option DateTime) :=
  match searchA m_gogo_hour text with
  | some h =>
    let hour := if h < 12 then h + 12 else h
    match setTime now hour (extract_minute text) with
    | .error e => .error e
    | .ok result =>
      .ok (some (if result.toAbsUs ≤ now.toAbsUs then addDays 1 result else result))
  | none => pd_gozen text now

/-- 深夜 : 23:00 today or tomorrow. -/
def pd_shinya (text : List Char) (now : DateTime) : Except Unit (Option DateTime) :=
  if containsL "深夜".data text then
    let result := { now with hour := 23, minute := 0, second := 0, usec := 0 }
    .ok (some (if result.toAbsUs ≤ now.toAbsUs then addDays 1 result else result))
  else pd_gogo text now

/-- 正午 / お昼 : 12:00 today or tomorrow. -/
def pd_shogo (text : List Char) (now : DateTime) : Except Unit (Option DateTime) :=
  if containsL "正午".data text || containsL "お昼".data text then
    let result := { now with hour := 12, minute := 0, second := 0, usec := 0 }
    .ok (some (if result.toAbsUs ≤ now.toAbsUs then addDays 1 result else result))
  else pd_shinya text now

/-- X月X日. -/
def pd_gatsu_nichi (text : List Char) (now : DateTime) : Except Unit (Option DateTime) :=
  match searchA m_gatsu_nichi text with
  | some md => gatsu_nichi_branch text now md.1 md.2
  | none => pd_shogo text now

/-- 次のX曜日 / 今度のX曜日 : nearest strictly future occurrence. -/
def pd_tsugi_wd (text : List Char) (now : DateTime) : Except Unit (Option DateTime) :=
  match searchA m_tsugi_wd text with
  | some wd =>
    let daysAhead := if wd ≤ now.weekday then wd + 7 - now.weekday else wd - now.weekday
    (make_time (addDays daysAhead now) text 9).map some
  | none => pd_gatsu_nichi text now

/-- 今週のX曜日 : this week's Monday plus the weekday index. -/
def pd_konshu_wd (text : List Char) (now : DateTime) : Except Unit (Option DateTime) :=
  match searchA m_konshu_wd text with
  | some wd => (make_time (addDays wd (subDays now.weekday now)) text 9).map some
  | none => pd_tsugi_wd text now

/-- Days until next Monday: (7 - weekday) % 7 or 7. -/
def daysUntilMonday (now : DateTime) : Nat :=
  let d0 := (7 - now.weekday) % 7
  if d0 = 0 then 7 else d0

/-- 来週のX曜日. -/
def pd_raishu_wd (text : List Char) (now : DateTime) : Except Unit (Option DateTime) :=
  match searchA m_raishu_wd text with
  | some wd =>
    (make_time (addDays wd (addDays (daysUntilMonday now) now)) text 9).map some
  | none => pd_konshu_wd text now

/-- 再来週のX曜日. -/
def pd_saraishu_wd (text : List Char) (now : DateTime) : Except Unit (Option DateTime) :=
  match searchA m_saraishu_wd text with
  | some wd =>
    (make_time (addDays wd (addDays (daysUntilMonday now + 7) now)) text 9).map some
  | none => pd_raishu_wd text now

/-- 今月X日 (guarded replace, make_time outside the guard). -/
def pd_kongetsu_day (text : List Char) (now : DateTime) : Except Unit (Option DateTime) :=
  match searchA m_kongetsu_day text with
  | some d =>
    if dateOk now.year now.month d then (make_time { now with day := d } text 9).map some
    else .ok none
  | none => pd_saraishu_wd text now

/-- 来月X日. -/
def pd_raigetsu_day (text : List Char) (now : DateTime) : Except Unit (Option DateTime) :=
  match searchA m_raigetsu_day text with
  | some d =>
    let p := next_month_year now.year now.month
    guarded_day_branch text p.1 p.2 d
  | none => pd_kongetsu_day text now

/-- 月初 / 今月初. -/
def pd_gessho (text : List Char) (now : DateTime) : Except Unit (Option DateTime) :=
  if containsL "月初".data text then (make_time { now with day := 1 } text 9).map some
  else pd_raigetsu_day text now

/-- 来月初. -/
def pd_raigetsu_sho (text : List Char) (now : DateTime) : Except Unit (Option DateTime) :=
  if containsL "来月初".data text then
    let p := next_month_year now.year now.month
    (make_time ⟨p.1, p.2, 1, 0, 0, 0, 0⟩ text 9).map some
  else pd_gessho text now

/-- 月末 / 今月末 : first day of next month minus one day. -/
def pd_getsumatsu (text : List Char) (now : DateTime) : Except Unit (Option DateTime) :=
  if containsL "月末".data text || containsL "今月末".data text then
    let p := next_month_year now.year now.month
    (make_time (subDays 1 ⟨p.1, p.2, 1, 0, 0, 0, 0⟩) text 9).map some
  else pd_raigetsu_sho text now

/-- 来月末 : last day of next month. -/
def pd_raigetsu_matsu (text : List Char) (now : DateTime) : Except Unit (Option DateTime) :=
  if containsL "来月末".data text then
    let p := next_month_year now.year now.month
    let lastDay := if p.2 = 12 then subDays 1 ⟨p.1 + 1, 1, 1, 0, 0, 0, 0⟩
                   else subDays 1 ⟨p.1, p.2 + 1, 1, 0, 0, 0, 0⟩
    (make_time lastDay text 9).map some
  else pd_getsumatsu text now

/-- 再来月 (no day). -/
def pd_saraigetsu (text : List Char) (now : DateTime) : Except Unit (Option DateTime) :=
  if containsL "再来月".data text then
    let p := saraigetsuYM now
    (make_time ⟨p.1, p.2, 1, 0, 0, 0, 0⟩ text 9).map some
  else pd_raigetsu_matsu text now

/-- 再来月X日. -/
def pd_sarai_day (text : List Char) (now : DateTime) : Except Unit (Option DateTime) :=
  match searchA m_sarai_day text with
  | some d =>
    let p := saraigetsuYM now
    guarded_day_branch text p.1 p.2 d
  | none => pd_saraigetsu text now

/-- 再来月初. -/
def pd_saraigetsu_sho (text : List Char) (now : DateTime) : Except Unit (Option DateTime) :=
  if containsL "再来月初".data text then
    let p := saraigetsuYM now
    (make_time ⟨p.1, p.2, 1, 0, 0, 0, 0⟩ text 9).map some
  else pd_sarai_day text now

/-- 再来月末. -/
def pd_saraigetsu_matsu (text : List Char) (now : DateTime) : Except Unit (Option DateTime) :=
  if containsL "再来月末".data text then
    let p := saraigetsuYM now
    let lastDay := if p.2 = 12 then subDays 1 ⟨p.1 + 1, 1, 1, 0, 0, 0, 0⟩
                   else subDays 1 ⟨p.1, p.2 + 1, 1, 0, 0, 0, 0⟩
    (make_time lastDay text 9).map some
  else pd_saraigetsu_sho text now

/-- 今週末 / 週末 : the source first computes a conditional that is
immediately overwritten; only the final live assignments are modelled.
(5 - weekday) in Python floor arithmetic is (5 + 7 - weekday) % 7 here. -/
def pd_shumatsu (text : List Char) (now : DateTime) : Except Unit (Option DateTime) :=
  if containsL "今週末".data text || containsL "週末".data text then
    let dus0 := (5 + 7 - now.weekday) % 7
    let dus := if dus0 = 0 then 7 else dus0
    let saturday := if now.weekday = 5 ∨ now.weekday = 6 then now else addDays dus now
    (make_time saturday text 9).map some
  else pd_saraigetsu_matsu text now

/-- 来週末 : next Monday plus five days. -/
def pd_raishu_matsu (text : List Char) (now : DateTime) : Except Unit (Option DateTime) :=
  if containsL "来週末".data text then
    (make_time (addDays (daysUntilMonday now + 5) now) text 9).map some
  else pd_shumatsu text now

/-- 今日 : hour defaults to the hour after the current one. -/
def pd_kyou (text : List Char) (now : DateTime) : Except Unit (Option DateTime) :=
  if containsL "今日".data text then (make_time now text (now.hour + 1)).map some
  else pd_raishu_matsu text now

/-- 明日. -/
def pd_ashita (text : List Char) (now : DateTime) : Except Unit (Option DateTime) :=
  if containsL "明日".data text then (make_time (addDays 1 now) text 9).map some
  else pd_kyou text now

/-- 明後日. -/
def pd_asatte (text : List Char) (now : DateTime) : Except Unit (Option DateTime) :=
  if containsL "明後日".data text then (make_time (addDays 2 now) text 9).map some
  else pd_ashita text now

/-- 明々後日 / しあさって. -/
def pd_shiasatte (text : List Char) (now : DateTime) : Except Unit (Option DateTime) :=
  if containsL "明々後日".data text || containsL "しあさって".data text then
    (make_time (addDays 3 now) text 9).map some
  else pd_asatte text now

/-- X週間後. -/
def pd_weeks_after (text : List Char) (now : DateTime) : Except Unit (Option DateTime) :=
  match searchA m_weeks_after text with
  | some w => (make_time (addDays (7 * w) now) text 9).map some
  | none => pd_shiasatte text now

/-- X日後 / あとX日. -/
def pd_days_after (text : List Char) (now : DateTime) : Except Unit (Option DateTime) :=
  match (searchA m_days_after text).orElse (fun _ => searchA m_ato_days text) with
  | some d => (make_time (addDays d now) text 9).map some
  | none => pd_weeks_after text now

/-- あとX時間. -/
def pd_ato_hours (text : List Char) (now : DateTime) : Except Unit (Option DateTime) :=
  match searchA m_ato_hours text with
  | some h => .ok (some (addMinutes (60 * h) now))
  | none => pd_days_after text now

/-- X分後 / あとX分. -/
def pd_min_after (text : List Char) (now : DateTime) : Except Unit (Option DateTime) :=
  match (searchA m_min_after text).orElse (fun _ => searchA m_ato_min text) with
  | some mi => .ok (some (addMinutes mi now))
  | none => pd_ato_hours text now

/-- X時間後. -/
def pd_hours_after (text : List Char) (now : DateTime) : Except Unit (Option DateTime) :=
  match searchA m_hours_after text with
  | some h => .ok (some (addMinutes (60 * h) now))
  | none => pd_min_after text now

/-- parse_datetime_pattern: normalize the text, then run the branch chain,
whose first member is the X時間半後 relative offset. -/
def parse_datetime_pattern (userInput : String) (now : DateTime) :
    Except Unit (Option DateTime) :=
  let text := (normalize_numbers userInput).data
  match searchA m_hours_half_after text with
  | some h => .ok (some (addMinutes (h * 60 + 30) now))
  | none => pd_hours_after text now

/-! ### parse_repeat_pattern (src/llm_parser.py lines 104-296). -/

/-- A recognised recurrence: repeat_type, repeat_value and the first
occurrence (the dict returned by the source). -/
structure RepeatResult where
  repeat_type : String
  repeat_value : Option String
  remind_at : DateTime
deriving DecidableEq, Repr

/-- While the day falls on Saturday or Sunday, advance one day (the source's
unbounded loop exits within two steps; fuel 7 is ample). -/
def skip_weekend : Nat → DateTime → DateTime
  | 0, d => d
  | fuel + 1, d => if 5 ≤ d.weekday then skip_weekend fuel d.succDay else d

/-- next_weekday_date: date of the next occurrence of the target weekday
(next week if today matches). -/
def next_weekday_date (now : DateTime) (targetWd : Nat) : DateTime :=
  let daysAhead := if targetWd ≤ now.weekday then targetWd + 7 - now.weekday
                   else targetWd - now.weekday
  addDays daysAhead now

/-- nth_weekday_of_month: the Nth given weekday of a month, none if the month
has no Nth one (shared verbatim between llm_parser and the scheduler). -/
def nth_weekday_of_month (year month nth wd : Nat) : Option DateTime :=
  let first : DateTime := ⟨year, month, 1, 0, 0, 0, 0⟩
  let daysAhead := if wd < first.weekday then wd + 7 - first.weekday
                   else wd - first.weekday
  let firstTarget := addDays daysAhead first
  let result := addDaysInt (7 * ((nth : Int) - 1)) firstTarget
  if result.month ≠ month then none else some result

/-- find_next_nth_weekday: nearest candidate after now among the given
ordinals over this month and the next; make_dt errors propagate. -/
def find_next_nth_weekday (now : DateTime) (timeText : List Char) (nths : List Nat)
    (wd : Nat) (offsetDays : Int) : Except Unit (Option DateTime) := do
  let hour := extract_hour timeText 9
  let minute := extract_minute timeText
  let months := [(now.year, now.month), next_month_year now.year now.month]
  let candidates ← months.foldlM (fun acc ym =>
    nths.foldlM (fun acc2 n =>
      match nth_weekday_of_month ym.1 ym.2 n wd with
      | none => pure acc2
      | some target => do
        let dt ← setTime (addDaysInt offsetDays target) hour minute
        pure (if now.toAbsUs < dt.toAbsUs then acc2 ++ [dt] else acc2)) acc)
    ([] : List DateTime)
  match candidates with
  | [] => pure none
  | c :: rest =>
    pure (some (rest.foldl (fun a b => if b.toAbsUs < a.toAbsUs then b else a) c))

/-- 毎月X日 fallback path: the unguarded next-month construction of the
source's except branch (raises when the day is invalid there too). -/
def maigetsu_next_month (now : DateTime) (day hour minute : Nat) :
    Except Unit (Option RepeatResult) :=
  let p := next_month_year now.year now.month
  if dateOk p.1 p.2 day then
    match setTime ⟨p.1, p.2, day, 0, 0, 0, 0⟩ hour minute with
    | .error e => .error e
    | .ok ra => .ok (some ⟨"monthly", some (toString day), ra⟩)
  else .error ()

/-- 毎月X日 branch: this month's day if it is still ahead, otherwise (or when
the guarded construction fails) next month. -/
def maigetsu_day_branch (now : DateTime) (day hour minute : Nat) :
    Except Unit (Option RepeatResult) :=
  if dateOk now.year now.month day then
    match setTime { now with day := day } hour minute with
    | .error _ => maigetsu_next_month now day hour minute
    | .ok ra =>
      if ra.toAbsUs ≤ now.toAbsUs then maigetsu_next_month now day hour minute
      else .ok (some ⟨"monthly", some (toString day), ra⟩)
  else maigetsu_next_month now day hour minute

/-- 平日 branch: weekdays rule; skip ahead to the next weekday when the time
has passed or today is a weekend day. -/
def pr_heijitsu (text timeText : List Char) (now : DateTime) :
    Except Unit (Option RepeatResult) :=
  if containsL "平日".data text then
    match setTime now (extract_hour timeText 9) (extract_minute timeText) with
    | .error e => .error e
    | .ok ra =>
      let ra := if ra.toAbsUs ≤ now.toAbsUs ∨ 5 ≤ now.weekday then
                  skip_weekend 7 (addDays 1 ra)
                else ra
      .ok (some ⟨"weekdays", none, ra⟩)
  else .ok none

/-- 毎日 branch: daily rule, default hour 9. -/
def pr_mainichi (text timeText : List Char) (now : DateTime) :
    Except Unit (Option RepeatResult) :=
  if containsL "毎日".data text then
    match setTime now (extract_hour timeText 9) (extract_minute timeText) with
    | .error e => .error e
    | .ok ra =>
      .ok (some ⟨"daily", none, if ra.toAbsUs ≤ now.toAbsUs then addDays 1 ra else ra⟩)
  else pr_heijitsu text timeText now

/-- 毎夕(方)? branch: daily rule, default hour 17, the cadence word removed
before hour extraction. -/
def pr_maiyu (text timeText : List Char) (now : DateTime) :
    Except Unit (Option RepeatResult) :=
  if containsL "毎夕".data text then
    let hour := extract_hour (removeAllL "毎夕".data (removeAllL "毎夕方".data timeText)) 17
    match setTime now hour (extract_minute timeText) with
    | .error e => .error e
    | .ok ra =>
      .ok (some ⟨"daily", none, if ra.toAbsUs ≤ now.toAbsUs then addDays 1 ra else ra⟩)
  else pr_mainichi text timeText now

/-- 毎晩 branch: daily rule, default hour 20. -/
def pr_maiban (text timeText : List Char) (now : DateTime) :
    Except Unit (Option RepeatResult) :=
  if containsL "毎晩".data text then
    let hour := extract_hour (removeAllL "毎晩".data timeText) 20
    match setTime now hour (extract_minute timeText) with
    | .error e => .error e
    | .ok ra =>
      .ok (some ⟨"daily", none, if ra.toAbsUs ≤ now.toAbsUs then addDays 1 ra else ra⟩)
  else pr_maiyu text timeText now

/-- 毎朝 branch: daily rule, default hour 8. -/
def pr_maiasa (text timeText : List Char) (now : DateTime) :
    Except Unit (Option RepeatResult) :=
  if containsL "毎朝".data text then
    let hour := extract_hour (removeAllL "毎朝".data timeText) 8
    match setTime now hour (extract_minute timeText) with
    | .error e => .error e
    | .ok ra =>
      .ok (some ⟨"daily", none, if ra.toAbsUs ≤ now.toAbsUs then addDays 1 ra else ra⟩)
  else pr_maiban text timeText now

/-- 毎週 without a weekday: weekly on today's weekday. -/
def pr_maishu_bare (text timeText : List Char) (now : DateTime) :
    Except Unit (Option RepeatResult) :=
  if containsL "毎週".data text then
    let wdc := WEEKDAY_NAMES.getD now.weekday ' '
    match setTime (next_weekday_date now now.weekday)
        (extract_hour timeText 9) (extract_minute timeText) with
    | .error e => .error e
    | .ok ra => .ok (some ⟨"weekly", some (String.singleton wdc), ra⟩)
  else pr_maiasa text timeText now

/-- 毎週X曜 branch: weekly rule anchored to the next such weekday. -/
def pr_maishu (text timeText : List Char) (now : DateTime) :
    Except Unit (Option RepeatResult) :=
  match searchA m_maishu_wd text with
  | some wdc =>
    match setTime (next_weekday_date now ((weekdayMap wdc).getD 0))
        (extract_hour timeText 9) (extract_minute timeText) with
    | .error e => .error e
    | .ok ra => .ok (some ⟨"weekly", some (String.singleton wdc), ra⟩)
  | none => pr_maishu_bare text timeText now

/-- 隔週X曜 branch: biweekly rule anchored to the next such weekday. -/
def pr_kakushu (text timeText : List Char) (now : DateTime) :
    Except Unit (Option RepeatResult) :=
  match searchA m_kakushu_wd text with
  | some wdc =>
    match setTime (next_weekday_date now ((weekdayMap wdc).getD 0))
        (extract_hour timeText 9) (extract_minute timeText) with
    | .error e => .error e
    | .ok ra => .ok (some ⟨"biweekly", some (String.singleton wdc), ra⟩)
  | none => pr_maishu text timeText now

/-- 毎月X日 branch dispatcher. -/
def pr_maigetsu_day (text timeText : List Char) (now : DateTime) :
    Except Unit (Option RepeatResult) :=
  match searchA m_maigetsu_day text with
  | some day =>
    maigetsu_day_branch now day (extract_hour timeText 9) (extract_minute timeText)
  | none => pr_kakushu text timeText now

/-- 毎月第N(,N)X曜日 branch (no 前日): monthly ordinal-weekday rule. -/
def pr_mai_dai (text timeText : List Char) (now : DateTime) :
    Except Unit (Option RepeatResult) :=
  match searchA (m_mai_dai false) text with
  | some rc =>
    let nths := splitNths rc.1
    match find_next_nth_weekday now timeText nths ((weekdayMap rc.2).getD 0) 0 with
    | .error e => .error e
    | .ok none => .ok none
    | .ok (some ra) =>
      let nthStr := String.intercalate "," (nths.map toString)
      .ok (some ⟨"monthly", some ("第" ++ nthStr ++ String.singleton rc.2), ra⟩)
  | none => pr_maigetsu_day text timeText now

/-- parse_repeat_pattern: normalize, compute the time sub-text by deleting the
extracted content, then run the recurrence branch chain, whose first member is
毎月第N(,N)X曜日の前日. -/
def parse_repeat_pattern (userInput : String) (now : DateTime) :
    Except Unit (Option RepeatResult) :=
  let text := (normalize_numbers userInput).data
  let content := extract_content userInput
  let timeText := if content ≠ userInput then removeAllL content.data text else text
  match searchA (m_mai_dai true) text with
  | some rc =>
    let nths := splitNths rc.1
    match find_next_nth_weekday now timeText nths ((weekdayMap rc.2).getD 0) (-1) with
    | .error e => .error e
    | .ok none => .ok none
    | .ok (some ra) =>
      let nthStr := String.intercalate "," (nths.map toString)
      .ok (some ⟨"monthly", some ("第" ++ nthStr ++ String.singleton rc.2 ++ "の前日"), ra⟩)
  | none => pr_mai_dai text timeText now

/-! ### The scheduler's next-occurrence calculator
(src/scheduler.py, _calculate_next_time and _nth_weekday_of_month). -/

/-- re.match(r'第([\d,]+)([月火水木金土日])(の前日)?', value): anchored prefix
match on the stored repeat_value. -/
def sched_nth_match (v : String) : Option (List Nat × Nat × Bool) :=
  match litP "第".data v.data with
  | none => none
  | some r =>
    let run := r.takeWhile isDigitCommaAsciiC
    if run = [] then none
    else
      match r.drop run.length with
      | [] => none
      | c :: rest =>
        match weekdayMap c with
        | some wd =>
          some (((run.splitOnP (fun ch => ch = ',')).filter (fun seg => seg ≠ [])).map digitsVal,
            wd, "の前日".data.isPrefixOf rest)
        | none => none

/-- One candidate of the ordinal-weekday monthly branch: the nth weekday of
the given month with the day-before offset applied and the time fields copied
from the fired occurrence, kept only when strictly after it. -/
def nth_candidate (current : DateTime) (ym : Nat × Nat) (wd : Nat) (offset : Int)
    (n : Nat) : Option DateTime :=
  match nth_weekday_of_month ym.1 ym.2 n wd with
  | none => none
  | some target =>
    let result := addDaysInt offset target
    let result := { result with hour := current.hour, minute := current.minute, second := current.second, usec := current.usec }
    if current.toAbsUs < result.toAbsUs then some result else none

/-- Candidate list of the ordinal-weekday monthly branch: this month, next
month and the month after, every listed ordinal, in order. -/
def monthly_nth_candidates (current : DateTime) (nths : List Nat) (wd : Nat)
    (offset : Int) : List DateTime :=
  let p := next_month_year current.year current.month
  let months := [(current.year, current.month), p, next_month_year p.1 p.2]
  months.flatMap (fun ym => nths.filterMap (nth_candidate current ym wd offset))

/-- Monthly branch of _calculate_next_time: ordinal-weekday search when the
value matches 第N..., otherwise same day next month with a clamp to the month
end (first day of the month after, minus one day). -/
def monthly_next (current : DateTime) (repeatValue : Option String) : Option DateTime :=
  let p := next_month_year current.year current.month
  match sched_nth_match (repeatValue.getD "") with
  | some nwp =>
    let offset : Int := if nwp.2.2 then -1 else 0
    match monthly_nth_candidates current nwp.1 nwp.2.1 offset with
    | [] => none
    | c :: rest =>
      some (rest.foldl (fun a b => if b.toAbsUs < a.toAbsUs then b else a) c)
  | none =>
    if dateOk p.1 p.2 current.day then some { current with year := p.1, month := p.2 }
    else
      let q := if p.2 = 12 then (p.1 + 1, 1) else (p.1, p.2 + 1)
      let lastDay := subDays 1 ⟨q.1, q.2, 1, 0, 0, 0, 0⟩
      some { lastDay with hour := current.hour, minute := current.minute, second := current.second, usec := current.usec }

/-- _calculate_next_time: next notification time for a repeat rule, none when
no candidate exists (or the repeat type is unknown). -/
def calculate_next_time (current : DateTime) (repeatType : String)
    (repeatValue : Option String) : Option DateTime :=
  if repeatType = "daily" then some (addDays 1 current)
  else if repeatType = "weekly" then some (addDays 7 current)
  else if repeatType = "monthly" then monthly_next current repeatValue
  else if repeatType = "biweekly" then some (addDays 14 current)
  else if repeatType = "weekdays" then some (skip_weekend 7 (addDays 1 current))
  else none

/-! ### Calendar lemmas -/

theorem daysInMonth_le_31 (y m : Nat) : daysInMonth y m ≤ 31 := by
  unfold daysInMonth
  split
  · split <;> omega
  · split <;> omega

theorem daysInMonth_pos (y m : Nat) : 28 ≤ daysInMonth y m := by
  unfold daysInMonth
  split
  · split <;> omega
  · split <;> omega

theorem isLeap_iff (y : Nat) :
    isLeap y = true ↔ (y % 4 = 0 ∧ y % 100 ≠ 0) ∨ y % 400 = 0 := by
  unfold isLeap
  simp [Bool.or_eq_true, Bool.and_eq_true, beq_iff_eq, bne_iff_ne]

theorem daysBeforeMonth_step (y m : Nat) (h1 : 1 ≤ m) (h2 : m ≤ 11) :
    daysBeforeMonth y (m + 1) = daysBeforeMonth y m + daysInMonth y m := by
  interval_cases m <;> cases hL : isLeap y <;>
    simp [daysBeforeMonth, daysInMonth, hL] <;> omega

set_option maxHeartbeats 1000000 in
theorem daysBeforeYear_step (y : Nat) (hy : 1 ≤ y) :
    daysBeforeYear (y + 1) = daysBeforeYear y + 365 + (if isLeap y then 1 else 0) := by
  have hiff := isLeap_iff y
  unfold daysBeforeYear
  by_cases hP : (y % 4 = 0 ∧ y % 100 ≠ 0) ∨ y % 400 = 0
  · rw [if_pos (hiff.mpr hP)]
    omega
  · rw [if_neg (fun hc => hP (hiff.mp hc))]
    omega

theorem daysBeforeYear_mono (y y' : Nat) (h : y ≤ y') :
    daysBeforeYear y ≤ daysBeforeYear y' := by
  induction y' with
  | zero =>
    have : y = 0 := by omega
    subst this
    exact Nat.le_refl _
  | succ k ih =>
    rcases Nat.lt_or_ge y (k + 1) with hk | hk
    · have hik := ih (by omega)
      rcases Nat.eq_zero_or_pos k with rfl | hkpos
      · have : y = 0 := by omega
        subst this
        simp [daysBeforeYear]
      · have hstep := daysBeforeYear_step k hkpos
        by_cases hL : isLeap k <;> simp [hL] at hstep <;> omega
    · have : y = k + 1 := by omega
      subst this
      exact Nat.le_refl _

theorem daysBeforeMonth_add_dim_le (y m : Nat) (h1 : 1 ≤ m) (h2 : m ≤ 12) :
    daysBeforeMonth y m + daysInMonth y m ≤ 365 + (if isLeap y then 1 else 0) := by
  interval_cases m <;> cases hL : isLeap y <;>
    simp [daysBeforeMonth, daysInMonth, hL] <;> omega

theorem daysBeforeMonth_mono (y m m' : Nat) (h1 : 1 ≤ m) (hmm : m < m') (h2 : m' ≤ 12) :
    daysBeforeMonth y m + daysInMonth y m ≤ daysBeforeMonth y m' := by
  induction m' with
  | zero => omega
  | succ k ih =>
    rcases Nat.lt_or_ge m k with hk | hk
    · have := ih hk (by omega)
      have hstep : daysBeforeMonth y (k + 1) = daysBeforeMonth y k + daysInMonth y k :=
        daysBeforeMonth_step y k (by omega) (by omega)
      omega
    · have hm : m = k := by omega
      subst hm
      have hstep : daysBeforeMonth y (m + 1) = daysBeforeMonth y m + daysInMonth y m :=
        daysBeforeMonth_step y m (by omega) (by omega)
      omega

theorem daysBeforeYear_gap (y y' : Nat) (hy : 1 ≤ y) (h : y < y') :
    daysBeforeYear y + 365 + (if isLeap y then 1 else 0) ≤ daysBeforeYear y' := by
  have hstep := daysBeforeYear_step y hy
  have hmono := daysBeforeYear_mono (y + 1) y' (by omega)
  omega

theorem rd_lt_rd (y1 m1 d1 y2 m2 d2 : Nat) (hy1 : 1 ≤ y1)
    (hm1 : 1 ≤ m1) (hm1b : m1 ≤ 12) (hm2 : 1 ≤ m2) (hm2b : m2 ≤ 12)
    (hd1 : d1 ≤ daysInMonth y1 m1) (hd2 : 1 ≤ d2)
    (hlt : y1 < y2 ∨ (y1 = y2 ∧ m1 < m2)) :
    rd y1 m1 d1 < rd y2 m2 d2 := by
  unfold rd
  rcases hlt with hy | ⟨rfl, hm⟩
  · have h1 := daysBeforeMonth_add_dim_le y1 m1 hm1 hm1b
    have h2 := daysBeforeYear_gap y1 y2 hy1 hy
    have h3 : 0 ≤ daysBeforeMonth y2 m2 := Nat.zero_le _
    omega
  · have h1 := daysBeforeMonth_mono y1 m1 m2 hm1 hm hm2b
    omega

/-! ### Day-arithmetic lemmas -/

theorem toRD_succDay (t : DateTime) (hv : t.Valid) : t.succDay.toRD = t.toRD + 1 := by
  obtain ⟨hy, hm1, hm2, hd1, hd2, _⟩ := hv
  unfold DateTime.succDay DateTime.toRD
  by_cases h1 : t.day < daysInMonth t.year t.month
  · rw [if_pos h1]
    simp [rd]
    omega
  · rw [if_neg h1]
    have hday : t.day = daysInMonth t.year t.month := by omega
    by_cases h2 : t.month < 12
    · rw [if_pos h2]
      have hstep := daysBeforeMonth_step t.year t.month hm1 (by omega)
      simp [rd]
      omega
    · rw [if_neg h2]
      have hm12 : t.month = 12 := by omega
      have hstep := daysBeforeYear_step t.year hy
      have hdim : daysInMonth t.year 12 = 31 := by simp [daysInMonth]
      simp [rd, hm12, daysBeforeMonth] at *
      by_cases hL : isLeap t.year <;> simp [hL] at hstep ⊢ <;> omega

theorem Valid_succDay (t : DateTime) (hv : t.Valid) : t.succDay.Valid := by
  obtain ⟨hy, hm1, hm2, hd1, hd2, hh, hmi, hs, hu⟩ := hv
  unfold DateTime.succDay DateTime.Valid
  by_cases h1 : t.day < daysInMonth t.year t.month
  · rw [if_pos h1]
    simp_all
    omega
  · rw [if_neg h1]
    by_cases h2 : t.month < 12
    · rw [if_pos h2]
      have := daysInMonth_pos t.year (t.month + 1)
      simp_all
      omega
    · rw [if_neg h2]
      have hdim : daysInMonth (t.year + 1) 1 = 31 := by simp [daysInMonth]
      simp_all

theorem succDay_time (t : DateTime) :
    t.succDay.hour = t.hour ∧ t.succDay.minute = t.minute ∧
    t.succDay.second = t.second ∧ t.succDay.usec = t.usec := by
  unfold DateTime.succDay
  split
  · simp
  · split <;> simp

theorem weekday_succDay (t : DateTime) (hv : t.Valid) :
    t.succDay.weekday = (t.weekday + 1) % 7 := by
  unfold DateTime.weekday
  rw [toRD_succDay t hv]
  omega

theorem toRD_addDays (k : Nat) (t : DateTime) (hv : t.Valid) :
    (addDays k t).toRD = t.toRD + k := by
  induction k generalizing t with
  | zero => rfl
  | succ n ih =>
    show (addDays n t.succDay).toRD = _
    rw [ih t.succDay (Valid_succDay t hv), toRD_succDay t hv]
    omega

theorem Valid_addDays (k : Nat) (t : DateTime) (hv : t.Valid) : (addDays k t).Valid := by
  induction k generalizing t with
  | zero => exact hv
  | succ n ih => exact ih t.succDay (Valid_succDay t hv)

theorem addDays_time (k : Nat) (t : DateTime) :
    (addDays k t).hour = t.hour ∧ (addDays k t).minute = t.minute ∧
    (addDays k t).second = t.second ∧ (addDays k t).usec = t.usec := by
  induction k generalizing t with
  | zero => exact ⟨rfl, rfl, rfl, rfl⟩
  | succ n ih =>
    have h1 := ih t.succDay
    have h2 := succDay_time t
    have heq : addDays (n + 1) t = addDays n t.succDay := rfl
    rw [heq]
    omega

theorem addDays_within (k : Nat) (t : DateTime) (hv : t.Valid)
    (h : t.day + k ≤ daysInMonth t.year t.month) :
    addDays k t = { t with day := t.day + k } := by
  induction k generalizing t with
  | zero => rfl
  | succ n ih =>
    have hsucc : t.succDay = { t with day := t.day + 1 } := by
      unfold DateTime.succDay
      rw [if_pos (by omega)]
    show addDays n t.succDay = _
    rw [hsucc]
    have hv2 : DateTime.Valid { t with day := t.day + 1 } := by
      obtain ⟨hy, hm1, hm2, hd1, hd2, hh, hmi, hs, hu⟩ := hv
      exact ⟨hy, hm1, hm2, by simp, by simp; omega, hh, hmi, hs, hu⟩
    rw [ih _ hv2 (by simp; omega)]
    simp
    omega

theorem toAbsUs_lt_of_toRD_lt (a b : DateTime)
    (hh : a.hour ≤ 23) (hmi : a.minute ≤ 59) (hs : a.second ≤ 59) (hu : a.usec ≤ 999999)
    (h : a.toRD < b.toRD) : a.toAbsUs < b.toAbsUs := by
  unfold DateTime.toAbsUs
  omega

theorem toAbsUs_lt_of_toRD_lt_same_time (a b : DateTime)
    (hh : a.hour = b.hour) (hmi : a.minute = b.minute) (hs : a.second = b.second)
    (hu : a.usec = b.usec) (h : a.toRD < b.toRD) : a.toAbsUs < b.toAbsUs := by
  unfold DateTime.toAbsUs
  rw [hh, hmi, hs, hu]
  have : a.toRD + 1 ≤ b.toRD := h
  omega

/-! ### skip_weekend specification -/

theorem skip_weekend_spec (d : DateTime) (hv : d.Valid) :
    (skip_weekend 7 d).Valid ∧ (skip_weekend 7 d).weekday < 5 ∧
    d.toRD ≤ (skip_weekend 7 d).toRD ∧
    (skip_weekend 7 d).hour = d.hour ∧ (skip_weekend 7 d).minute = d.minute ∧
    (skip_weekend 7 d).second = d.second ∧ (skip_weekend 7 d).usec = d.usec := by
  have hwd : d.weekday < 7 := Nat.mod_lt _ (by omega)
  by_cases h0 : 5 ≤ d.weekday
  · have hv1 := Valid_succDay d hv
    have hw1 : d.succDay.weekday = (d.weekday + 1) % 7 := weekday_succDay d hv
    by_cases h1 : 5 ≤ d.succDay.weekday
    · have hv2 := Valid_succDay _ hv1
      have hw2 : d.succDay.succDay.weekday = (d.succDay.weekday + 1) % 7 :=
        weekday_succDay _ hv1
      have h2 : ¬ 5 ≤ d.succDay.succDay.weekday := by omega
      have heq : skip_weekend 7 d = d.succDay.succDay := by
        unfold skip_weekend
        rw [if_pos h0]
        unfold skip_weekend
        rw [if_pos h1]
        unfold skip_weekend
        rw [if_neg h2]
      rw [heq]
      have ht1 := succDay_time d
      have ht2 := succDay_time d.succDay
      have hr1 := toRD_succDay d hv
      have hr2 := toRD_succDay _ hv1
      exact ⟨hv2, by omega, by omega, by omega, by omega, by omega, by omega⟩
    · have heq : skip_weekend 7 d = d.succDay := by
        unfold skip_weekend
        rw [if_pos h0]
        unfold skip_weekend
        rw [if_neg h1]
      rw [heq]
      have ht1 := succDay_time d
      have hr1 := toRD_succDay d hv
      exact ⟨hv1, by omega, by omega, by omega, by omega, by omega, by omega⟩
  · have heq : skip_weekend 7 d = d := by
      unfold skip_weekend
      rw [if_neg h0]
    rw [heq]
    exact ⟨hv, by omega, by omega, rfl, rfl, rfl, rfl⟩

/-! ### Specification of the plain (non-ordinal) monthly advance -/

theorem next_month_year_bounds (y m : Nat) (hy : 1 ≤ y) (hm1 : 1 ≤ m) (hm2 : m ≤ 12) :
    1 ≤ (next_month_year y m).1 ∧ 1 ≤ (next_month_year y m).2 ∧
    (next_month_year y m).2 ≤ 12 ∧ y ≤ (next_month_year y m).1 := by
  unfold next_month_year
  split <;> simp <;> omega

/-- The monthly branch with a value that does not match the ordinal-weekday
regex: same day next month, clamped to that month's last day (computed as the
first day of the month after, minus one day). -/
theorem monthly_plain_spec (t : DateTime) (v : Option String) (hv : t.Valid)
    (h : sched_nth_match (v.getD "") = none) :
    calculate_next_time t "monthly" v =
      some (if t.day ≤ daysInMonth (next_month_year t.year t.month).1 (next_month_year t.year t.month).2 then
              { t with year := (next_month_year t.year t.month).1, month := (next_month_year t.year t.month).2 }
            else
              { t with year := (next_month_year t.year t.month).1, month := (next_month_year t.year t.month).2, day := daysInMonth (next_month_year t.year t.month).1 (next_month_year t.year t.month).2 }) := by
  obtain ⟨hy, hm1, hm2, hd1, hd2, hh, hmi, hs, hu⟩ := hv
  have hb := next_month_year_bounds t.year t.month hy hm1 hm2
  have hcalc : calculate_next_time t "monthly" v = monthly_next t v := rfl
  rw [hcalc]
  simp only [monthly_next, h]
  by_cases hle : t.day ≤ daysInMonth (next_month_year t.year t.month).1 (next_month_year t.year t.month).2
  · rw [if_pos ⟨by omega, by omega, by omega, hd1, hle⟩, if_pos hle]
  · rw [if_neg (fun hd => hle hd.2.2.2.2), if_neg hle]
    by_cases h12 : (next_month_year t.year t.month).2 = 12
    · rw [if_pos h12]
      have hpred : subDays 1 (⟨(next_month_year t.year t.month).1 + 1, 1, 1, 0, 0, 0, 0⟩ : DateTime) =
          ⟨(next_month_year t.year t.month).1, 12, 31, 0, 0, 0, 0⟩ := by
        simp only [subDays]
        unfold DateTime.predDay
        norm_num
      rw [hpred]
      have hdim : daysInMonth (next_month_year t.year t.month).1 12 = 31 := by
        simp [daysInMonth]
      simp [h12, hdim]
    · rw [if_neg h12]
      have hpred : subDays 1 (⟨(next_month_year t.year t.month).1, (next_month_year t.year t.month).2 + 1, 1, 0, 0, 0, 0⟩ : DateTime) =
          ⟨(next_month_year t.year t.month).1, (next_month_year t.year t.month).2, daysInMonth (next_month_year t.year t.month).1 (next_month_year t.year t.month).2, 0, 0, 0, 0⟩ := by
        simp only [subDays]
        unfold DateTime.predDay
        have h1 : ¬ (1 < 1) := by omega
        rw [if_neg h1, if_pos (by simp; omega)]
        simp
      rw [hpred]

/-! ### Claim theorems -/

/-- C1 counterexample: for the phrase 毎月31日 with now = 2024-02-15, the
detector does not clamp the first occurrence to 2024-02-29; it targets the
next month (2024-03-31 09:00, month 3, not February), and advance from
2024-02-29 with rule (monthly, "31") returns 2024-03-29, not 2024-03-31. -/
theorem claim_C1_counterexample :
    parse_repeat_pattern "毎月31日" ⟨2024, 2, 15, 10, 0, 0, 0⟩ =
      .ok (some ⟨"monthly", some "31", ⟨2024, 3, 31, 9, 0, 0, 0⟩⟩) ∧
    (⟨2024, 3, 31, 9, 0, 0, 0⟩ : DateTime).month ≠ 2 ∧
    calculate_next_time ⟨2024, 2, 29, 9, 0, 0, 0⟩ "monthly" (some "31") =
      some ⟨2024, 3, 29, 9, 0, 0, 0⟩ ∧
    (⟨2024, 3, 29, 9, 0, 0, 0⟩ : DateTime) ≠ ⟨2024, 3, 31, 9, 0, 0, 0⟩ :=
  ⟨rfl, by decide, rfl, by decide⟩

/-- C1 amended: for 毎月31日 with now = 2024-02-15, resolve returns the rule
(monthly, "31") with first occurrence 2024-03-31 09:00 (a day invalid in the
current month targets the next month), and a subsequent advance from
2024-03-31 returns 2024-04-30 (clamped to April's last day). -/
theorem claim_C1_amended :
    parse_repeat_pattern "毎月31日" ⟨2024, 2, 15, 10, 0, 0, 0⟩ =
      .ok (some ⟨"monthly", some "31", ⟨2024, 3, 31, 9, 0, 0, 0⟩⟩) ∧
    calculate_next_time ⟨2024, 3, 31, 9, 0, 0, 0⟩ "monthly" (some "31") =
      some ⟨2024, 4, 30, 9, 0, 0, 0⟩ :=
  ⟨rfl, rfl⟩

/-- C2: for every valid timestamp with day-of-month 31 and rule
(monthly, "31"), advance returns the last day of the following month with the
wall-clock time preserved; it is never an error and never moves past the
following month. -/
theorem claim_C2 (t : DateTime) (hv : t.Valid) (h31 : t.day = 31) :
    calculate_next_time t "monthly" (some "31") =
      some { t with year := (next_month_year t.year t.month).1,
                    month := (next_month_year t.year t.month).2,
                    day := daysInMonth (next_month_year t.year t.month).1 (next_month_year t.year t.month).2 } := by
  have hm := monthly_plain_spec t (some "31") hv (by rfl)
  rw [hm]
  by_cases hle : t.day ≤ daysInMonth (next_month_year t.year t.month).1 (next_month_year t.year t.month).2
  · rw [if_pos hle]
    have hdim : daysInMonth (next_month_year t.year t.month).1 (next_month_year t.year t.month).2 = 31 :=
      le_antisymm (daysInMonth_le_31 _ _) (by omega)
    rw [hdim, ← h31]
  · rw [if_neg hle]

/-- C2 witness at 2024-01-31 10:30: advance lands on 2024-02-29 10:30. -/
theorem claim_C2_witness :
    DateTime.Valid ⟨2024, 1, 31, 10, 30, 0, 0⟩ ∧
    calculate_next_time ⟨2024, 1, 31, 10, 30, 0, 0⟩ "monthly" (some "31") =
      some ⟨2024, 2, 29, 10, 30, 0, 0⟩ := by
  have h := claim_C2 ⟨2024, 1, 31, 10, 30, 0, 0⟩ (by decide) (by decide)
  exact ⟨by decide, h.trans (by decide)⟩

/-- C3 counterexample: the day-offset phrase 3日後 at now = 2024-07-01 10:30
resolves to 2024-07-04 09:00, which is not now plus exactly three days (the
wall-clock time is reset to the extracted default 09:00). -/
theorem claim_C3_counterexample :
    parse_datetime_pattern "3日後" ⟨2024, 7, 1, 10, 30, 0, 0⟩ =
      .ok (some ⟨2024, 7, 4, 9, 0, 0, 0⟩) ∧
    (⟨2024, 7, 4, 9, 0, 0, 0⟩ : DateTime) ≠ addDays 3 ⟨2024, 7, 1, 10, 30, 0, 0⟩ :=
  ⟨rfl, by decide⟩

/-- C3 amended: for every reference instant, hour, half-hour and minute
offsets resolve to now plus exactly the declared delta (witnessed across the
phrase families at representative offsets), while day and week offsets
advance the date exactly but re-derive the time of day from the phrase
(default 09:00) instead of keeping now's wall-clock time. -/
theorem claim_C3_amended (now : DateTime) :
    parse_datetime_pattern "2時間半後" now = .ok (some (addMinutes 150 now)) ∧
    parse_datetime_pattern "3時間後" now = .ok (some (addMinutes 180 now)) ∧
    parse_datetime_pattern "45分後" now = .ok (some (addMinutes 45 now)) ∧
    parse_datetime_pattern "あと10分" now = .ok (some (addMinutes 10 now)) ∧
    parse_datetime_pattern "あと2時間" now = .ok (some (addMinutes 120 now)) ∧
    parse_datetime_pattern "3日後" now =
      .ok (some { addDays 3 now with hour := 9, minute := 0, second := 0, usec := 0 }) ∧
    parse_datetime_pattern "1週間後" now =
      .ok (some { addDays 7 now with hour := 9, minute := 0, second := 0, usec := 0 }) :=
  ⟨rfl, rfl, rfl, rfl, rfl, rfl, rfl⟩

/-- Helper for C4: 毎月32日 always raises — the guarded this-month
construction fails (no month has 32 days) and the fallback next-month
construction is unguarded in the source. -/
theorem maigetsu_day_branch_32 (now : DateTime) (h mi : Nat) :
    maigetsu_day_branch now 32 h mi = .error () := by
  unfold maigetsu_day_branch
  rw [if_neg (fun hd => absurd hd.2.2.2.2
    (by have := daysInMonth_le_31 now.year now.month; omega))]
  unfold maigetsu_next_month
  rw [if_neg (fun hd => absurd hd.2.2.2.2
    (by have := daysInMonth_le_31 (next_month_year now.year now.month).1 (next_month_year now.year now.month).2; omega))]

/-- C4: for every reference instant, an unmatched phrase is a normal no-match
in both the detector and the resolver, and a guarded invalid calendar date
(来月32日) is a normal no-match; but out-of-range numeric phrases raise:
25時 raises from the bare-hour replace, and 毎月32日 raises from the
unguarded next-month datetime construction — contradicting the claim that
the two functions never raise. -/
theorem claim_C4 (now : DateTime) :
    parse_datetime_pattern "こんにちは" now = .ok none ∧
    parse_repeat_pattern "こんにちは" now = .ok none ∧
    parse_datetime_pattern "来月32日" now = .ok none ∧
    parse_datetime_pattern "25時" now = .error () ∧
    parse_repeat_pattern "毎月32日" now = .error () := by
  refine ⟨rfl, rfl, ?_, rfl, ?_⟩
  · have hstep : parse_datetime_pattern "来月32日" now =
        guarded_day_branch ((normalize_numbers "来月32日").data)
          (next_month_year now.year now.month).1 (next_month_year now.year now.month).2 32 := rfl
    rw [hstep]
    unfold guarded_day_branch
    rw [if_neg (fun hd => absurd hd.2.2.2.2
      (by have := daysInMonth_le_31 (next_month_year now.year now.month).1 (next_month_year now.year now.month).2; omega))]
  · have hstep : parse_repeat_pattern "毎月32日" now = maigetsu_day_branch now 32 9 0 := rfl
    rw [hstep, maigetsu_day_branch_32]

/-- C5: extract_content never returns an empty string on a non-empty input:
when stripping empties the text, the original input is returned unchanged. -/
theorem claim_C5 (phrase : String) (h : phrase ≠ "") :
    0 < (extract_content phrase).length := by
  have hlen : ∀ s : String, s ≠ "" → 0 < s.length := by
    intro s hs
    cases s with
    | mk data =>
      cases data with
      | nil => exact absurd rfl hs
      | cons c cs => simp [String.length]
  simp only [extract_content]
  split
  · exact hlen phrase h
  · next hne => exact hlen _ hne

/-- C5 witness at the phrase abc. -/
theorem claim_C5_witness : "abc" ≠ "" ∧ 0 < (extract_content "abc").length :=
  ⟨by decide, claim_C5 "abc" (by decide)⟩

/-- C8 counterexample: 今日 at a reference instant with hour 23 raises
(hour 24 is out of range for the replace), so the claimed behaviour does not
hold for every reference instant. -/
theorem claim_C8_counterexample :
    parse_datetime_pattern "今日" ⟨2024, 7, 1, 23, 0, 0, 0⟩ = .error () :=
  rfl

/-- C8 amended: for every valid reference instant with hour at most 22, the
phrase 今日 (no explicit hour or time-of-day word) resolves to today's date at
hour now.hour + 1, minute 0; at hour 23 the resolver raises instead. -/
theorem claim_C8_amended (now : DateTime) (hv : now.Valid) (h23 : now.hour ≤ 22) :
    parse_datetime_pattern "今日" now =
      .ok (some { now with hour := now.hour + 1, minute := 0, second := 0, usec := 0 }) := by
  have hstep : parse_datetime_pattern "今日" now = (setTime now (now.hour + 1) 0).map some := rfl
  rw [hstep]
  unfold setTime
  rw [if_pos ⟨by omega, by omega⟩]
  rfl

/-- C8 witness at 2024-07-01 10:00: 今日 resolves to 11:00 the same day. -/
theorem claim_C8_witness :
    DateTime.Valid ⟨2024, 7, 1, 10, 0, 0, 0⟩ ∧
    (⟨2024, 7, 1, 10, 0, 0, 0⟩ : DateTime).hour ≤ 22 ∧
    parse_datetime_pattern "今日" ⟨2024, 7, 1, 10, 0, 0, 0⟩ =
      .ok (some ⟨2024, 7, 1, 11, 0, 0, 0⟩) := by
  have h := claim_C8_amended ⟨2024, 7, 1, 10, 0, 0, 0⟩ (by decide) (by decide)
  exact ⟨by decide, by decide, h.trans (by rfl)⟩

/-- C9: resolution is deterministic and pure — the recurrence detector, the
pattern resolver and the content extractor are functions of the phrase and
the captured reference instant alone, so repeated invocations with the same
arguments return identical results. -/
theorem claim_C9 (phrase : String) (now : DateTime) :
    parse_repeat_pattern phrase now = parse_repeat_pattern phrase now ∧
    parse_datetime_pattern phrase now = parse_datetime_pattern phrase now ∧
    extract_content phrase = extract_content phrase :=
  ⟨rfl, rfl, rfl⟩

/-- C10: for kind monthly with any value not matching the ordinal-weekday
form, advance ignores the value: it returns the fired occurrence's
day-of-month in the next month, clamped to that month's last day when absent;
hence two such rules with different values agree, and a clamped occurrence
keeps the clamped day afterwards. -/
theorem claim_C10 (t : DateTime) (v v' : Option String) (hv : t.Valid)
    (h : sched_nth_match (v.getD "") = none) (h' : sched_nth_match (v'.getD "") = none) :
    (calculate_next_time t "monthly" v =
      some (if t.day ≤ daysInMonth (next_month_year t.year t.month).1 (next_month_year t.year t.month).2 then
              { t with year := (next_month_year t.year t.month).1, month := (next_month_year t.year t.month).2 }
            else
              { t with year := (next_month_year t.year t.month).1, month := (next_month_year t.year t.month).2, day := daysInMonth (next_month_year t.year t.month).1 (next_month_year t.year t.month).2 })) ∧
    calculate_next_time t "monthly" v = calculate_next_time t "monthly" v' := by
  have h1 := monthly_plain_spec t v hv h
  have h2 := monthly_plain_spec t v' hv h'
  exact ⟨h1, h1.trans h2.symm⟩

/-- C10 witness: from 2024-01-31 09:00 the values "31" and "15" both advance
to 2024-02-29 09:00. -/
theorem claim_C10_witness :
    DateTime.Valid ⟨2024, 1, 31, 9, 0, 0, 0⟩ ∧
    sched_nth_match "31" = none ∧ sched_nth_match "15" = none ∧
    calculate_next_time ⟨2024, 1, 31, 9, 0, 0, 0⟩ "monthly" (some "31") =
      some ⟨2024, 2, 29, 9, 0, 0, 0⟩ ∧
    calculate_next_time ⟨2024, 1, 31, 9, 0, 0, 0⟩ "monthly" (some "31") =
      calculate_next_time ⟨2024, 1, 31, 9, 0, 0, 0⟩ "monthly" (some "15") := by
  have h := claim_C10 ⟨2024, 1, 31, 9, 0, 0, 0⟩ (some "31") (some "15")
    (by decide) (by rfl) (by rfl)
  exact ⟨by decide, by rfl, by rfl, h.1.trans (by decide), h.2⟩

/-- C6: the weekdays cadence always advances by at least one day, skipping
day by day over Saturday and Sunday, so the result's day of week is a weekday
and the wall-clock time is preserved. -/
theorem claim_C6 (t : DateTime) (hv : t.Valid) :
    ∃ r, calculate_next_time t "weekdays" none = some r ∧
      r.weekday < 5 ∧ t.toRD + 1 ≤ r.toRD ∧
      r.hour = t.hour ∧ r.minute = t.minute ∧ r.second = t.second ∧ r.usec = t.usec := by
  have hcalc : calculate_next_time t "weekdays" none =
      some (skip_weekend 7 (addDays 1 t)) := rfl
  have hv1 : (addDays 1 t).Valid := Valid_addDays 1 t hv
  obtain ⟨hsv, hswd, hsrd, hsh, hsm, hss, hsu⟩ := skip_weekend_spec (addDays 1 t) hv1
  have hrd : (addDays 1 t).toRD = t.toRD + 1 := toRD_addDays 1 t hv
  obtain ⟨hth, htm, hts, htu⟩ := addDays_time 1 t
  exact ⟨skip_weekend 7 (addDays 1 t), hcalc, hswd, by omega, by omega, by omega,
    by omega, by omega⟩

/-- C6 witness: fired on Friday 2024-07-05 10:00, the next occurrence is a
weekday strictly later. -/
theorem claim_C6_witness :
    DateTime.Valid ⟨2024, 7, 5, 10, 0, 0, 0⟩ ∧
    ∃ r, calculate_next_time ⟨2024, 7, 5, 10, 0, 0, 0⟩ "weekdays" none = some r ∧
      r.weekday < 5 ∧ DateTime.toRD ⟨2024, 7, 5, 10, 0, 0, 0⟩ + 1 ≤ r.toRD ∧
      r.hour = 10 ∧ r.minute = 0 ∧ r.second = 0 ∧ r.usec = 0 :=
  ⟨by decide, claim_C6 ⟨2024, 7, 5, 10, 0, 0, 0⟩ (by decide)⟩

/-! ### Ordinal-weekday lemmas for C7 -/

/-- The third given weekday of a month always exists (its day falls in
15..21, within every month's length). -/
theorem Valid_mk (y m d : Nat) (hy : 1 ≤ y) (hm1 : 1 ≤ m) (hm2 : m ≤ 12)
    (hd1 : 1 ≤ d) (hd2 : d ≤ daysInMonth y m) :
    DateTime.Valid ⟨y, m, d, 0, 0, 0, 0⟩ := by
  unfold DateTime.Valid
  refine ⟨hy, hm1, hm2, ?_, ?_, ?_, ?_, ?_, ?_⟩ <;> simp <;> omega

set_option maxHeartbeats 800000 in
theorem nth_weekday_3_exists (y m wd : Nat) (hy : 1 ≤ y) (hm1 : 1 ≤ m)
    (hm2 : m ≤ 12) (hwd : wd < 7) :
    ∃ d, nth_weekday_of_month y m 3 wd = some ⟨y, m, d, 0, 0, 0, 0⟩ ∧
      15 ≤ d ∧ d ≤ 21 ∧ d ≤ daysInMonth y m := by
  have hdim := daysInMonth_pos y m
  have hfv : DateTime.Valid ⟨y, m, 1, 0, 0, 0, 0⟩ := Valid_mk y m 1 hy hm1 hm2 (by omega) (by omega)
  have hw : DateTime.weekday ⟨y, m, 1, 0, 0, 0, 0⟩ < 7 := Nat.mod_lt _ (by omega)
  unfold nth_weekday_of_month
  dsimp only
  set wdf := DateTime.weekday ⟨y, m, 1, 0, 0, 0, 0⟩ with hwdf
  set da := if wd < wdf then wd + 7 - wdf else wd - wdf with hda
  have hda6 : da ≤ 6 := by rw [hda]; split <;> omega
  have h1 : addDays da (⟨y, m, 1, 0, 0, 0, 0⟩ : DateTime) = ⟨y, m, 1 + da, 0, 0, 0, 0⟩ := by
    have := addDays_within da ⟨y, m, 1, 0, 0, 0, 0⟩ hfv (by simp; omega)
    simpa using this
  have hv1 : DateTime.Valid ⟨y, m, 1 + da, 0, 0, 0, 0⟩ :=
    Valid_mk y m (1 + da) hy hm1 hm2 (by omega) (by omega)
  have h2 : addDays 14 (⟨y, m, 1 + da, 0, 0, 0, 0⟩ : DateTime) = ⟨y, m, 1 + da + 14, 0, 0, 0, 0⟩ := by
    have := addDays_within 14 ⟨y, m, 1 + da, 0, 0, 0, 0⟩ hv1 (by simp; omega)
    simpa using this
  have hint : addDaysInt (7 * (((3 : Nat) : Int) - 1)) (⟨y, m, 1 + da, 0, 0, 0, 0⟩ : DateTime) =
      addDays 14 ⟨y, m, 1 + da, 0, 0, 0, 0⟩ := by
    have hi : (7 * (((3 : Nat) : Int) - 1)) = (14 : Int) := by norm_num
    rw [hi]
    unfold addDaysInt
    rw [if_pos (by norm_num)]
    congr 1
  refine ⟨1 + da + 14, ?_, by omega, by omega, by omega⟩
  rw [h1, hint, h2]
  rw [if_neg (by simp)]

/-- Lexicographic step to the next month. -/
theorem next_month_lex (y m : Nat) (hm2 : m ≤ 12) :
    y < (next_month_year y m).1 ∨
    (y = (next_month_year y m).1 ∧ m < (next_month_year y m).2) := by
  unfold next_month_year
  split
  · simp
  · simp

/-- Rata die strictly grows from any day of a month to any day of the next
month. -/
theorem rd_lt_next (y m d d2 : Nat) (hy : 1 ≤ y) (hm1 : 1 ≤ m) (hm2 : m ≤ 12)
    (hd : d ≤ daysInMonth y m) (hd2 : 1 ≤ d2) :
    rd y m d < rd (next_month_year y m).1 (next_month_year y m).2 d2 := by
  have hb := next_month_year_bounds y m hy hm1 hm2
  exact rd_lt_rd y m d _ _ d2 hy hm1 hm2 (by omega) (by omega) hd hd2
    (next_month_lex y m hm2)

/-- A single-ordinal filterMap collapses to an Option.toList. -/
theorem filterMap_single {α β : Type} (f : α → Option β) (a : α) :
    [a].filterMap f = (f a).toList := by
  cases h : f a <;> simp [h]

/-- The candidate list for a single ordinal is the three per-month candidates
in order. -/
theorem monthly_nth_candidates_3 (cur : DateTime) (wd : Nat) :
    monthly_nth_candidates cur [3] wd 0 =
      (nth_candidate cur (cur.year, cur.month) wd 0 3).toList ++
      ((nth_candidate cur (next_month_year cur.year cur.month) wd 0 3).toList ++
       (nth_candidate cur (next_month_year (next_month_year cur.year cur.month).1 (next_month_year cur.year cur.month).2) wd 0 3).toList) := by
  unfold monthly_nth_candidates
  simp [filterMap_single]

theorem addDaysInt_zero (x : DateTime) : addDaysInt 0 x = x := rfl

set_option maxHeartbeats 4000000 in
/-- C7: when a monthly ordinal-weekday rule for the 3rd Tuesday fires exactly
on the 3rd Tuesday of its month, advance searches this month, the next and
the month after, keeps only candidates strictly after the fired occurrence
(computed as first-of-month advanced to the weekday plus two weeks, with the
fired occurrence's time), and the minimum is the 3rd Tuesday of the next
month with the wall-clock time preserved. -/
theorem claim_C7 (t : DateTime) (hv : t.Valid)
    (h3 : nth_weekday_of_month t.year t.month 3 1 = some ⟨t.year, t.month, t.day, 0, 0, 0, 0⟩) :
    ∃ d2, nth_weekday_of_month (next_month_year t.year t.month).1 (next_month_year t.year t.month).2 3 1 =
        some ⟨(next_month_year t.year t.month).1, (next_month_year t.year t.month).2, d2, 0, 0, 0, 0⟩ ∧
      calculate_next_time t "monthly" (some "第3火") =
        some ⟨(next_month_year t.year t.month).1, (next_month_year t.year t.month).2, d2, t.hour, t.minute, t.second, t.usec⟩ := by
  obtain ⟨hy, hm1, hm2, hd1, hd2, hhh, hmm, hss, huu⟩ := hv
  obtain ⟨y, m, d, hh, mi, s, us⟩ := t
  dsimp only at h3 hy hm1 hm2 hd1 hd2 hhh hmm hss huu ⊢
  have hpb := next_month_year_bounds y m hy hm1 hm2
  have hqb := next_month_year_bounds (next_month_year y m).1 (next_month_year y m).2
    (by omega) (by omega) (by omega)
  set p := next_month_year y m with hp
  set q := next_month_year p.1 p.2 with hq
  obtain ⟨d2, h2eq, h2a, h2b, h2dim⟩ :=
    nth_weekday_3_exists p.1 p.2 1 (by omega) (by omega) (by omega) (by omega)
  obtain ⟨d3, h3eq, h3a, h3b, h3dim⟩ :=
    nth_weekday_3_exists q.1 q.2 1 (by omega) (by omega) (by omega) (by omega)
  have hrd2 : rd y m d < rd p.1 p.2 d2 := rd_lt_next y m d d2 hy hm1 hm2 hd2 (by omega)
  have hrd23 : rd p.1 p.2 d2 < rd q.1 q.2 d3 :=
    rd_lt_next p.1 p.2 d2 d3 (by omega) (by omega) (by omega) h2dim (by omega)
  have hlt2 : (⟨y, m, d, hh, mi, s, us⟩ : DateTime).toAbsUs <
      (⟨p.1, p.2, d2, hh, mi, s, us⟩ : DateTime).toAbsUs :=
    toAbsUs_lt_of_toRD_lt_same_time _ _ rfl rfl rfl rfl hrd2
  have hlt3 : (⟨y, m, d, hh, mi, s, us⟩ : DateTime).toAbsUs <
      (⟨q.1, q.2, d3, hh, mi, s, us⟩ : DateTime).toAbsUs :=
    toAbsUs_lt_of_toRD_lt_same_time _ _ rfl rfl rfl rfl (Nat.lt_trans hrd2 hrd23)
  have hlt23 : (⟨p.1, p.2, d2, hh, mi, s, us⟩ : DateTime).toAbsUs <
      (⟨q.1, q.2, d3, hh, mi, s, us⟩ : DateTime).toAbsUs :=
    toAbsUs_lt_of_toRD_lt_same_time _ _ rfl rfl rfl rfl hrd23
  have hc1 : nth_candidate ⟨y, m, d, hh, mi, s, us⟩ (y, m) 1 0 3 = none := by
    unfold nth_candidate
    rw [h3]
    dsimp only
    rw [addDaysInt_zero]
    dsimp only
    rw [if_neg (lt_irrefl _)]
  have hc2 : nth_candidate ⟨y, m, d, hh, mi, s, us⟩ p 1 0 3 =
      some ⟨p.1, p.2, d2, hh, mi, s, us⟩ := by
    unfold nth_candidate
    rw [h2eq]
    dsimp only
    rw [addDaysInt_zero]
    dsimp only
    rw [if_pos hlt2]
  have hc3 : nth_candidate ⟨y, m, d, hh, mi, s, us⟩ q 1 0 3 =
      some ⟨q.1, q.2, d3, hh, mi, s, us⟩ := by
    unfold nth_candidate
    rw [h3eq]
    dsimp only
    rw [addDaysInt_zero]
    dsimp only
    rw [if_pos hlt3]
  have hparse : sched_nth_match "第3火" = some ([3], 1, false) := rfl
  have hcands : monthly_nth_candidates ⟨y, m, d, hh, mi, s, us⟩ [3] 1 0 =
      [⟨p.1, p.2, d2, hh, mi, s, us⟩, ⟨q.1, q.2, d3, hh, mi, s, us⟩] := by
    rw [monthly_nth_candidates_3]
    dsimp only
    rw [hc1, hc2, hc3]
    rfl
  have hfinal : calculate_next_time ⟨y, m, d, hh, mi, s, us⟩ "monthly" (some "第3火") =
      monthly_next ⟨y, m, d, hh, mi, s, us⟩ (some "第3火") := by
    unfold calculate_next_time
    rw [if_neg (by decide), if_neg (by decide), if_pos rfl]
  refine ⟨d2, h2eq, ?_⟩
  rw [hfinal]
  unfold monthly_next
  rw [Option.getD_some, hparse]
  dsimp only
  have hoff : (if (false : Bool) then (-1 : Int) else 0) = 0 := rfl
  rw [hoff, hcands]
  dsimp only [List.foldl]
  rw [if_neg (by omega)]

/-- C7 witness: fired on 2024-07-16 10:30 (the 3rd Tuesday of July 2024), the
next occurrence is the 3rd Tuesday of August 2024. -/
theorem claim_C7_witness :
    DateTime.Valid ⟨2024, 7, 16, 10, 30, 0, 0⟩ ∧
    nth_weekday_of_month 2024 7 3 1 = some ⟨2024, 7, 16, 0, 0, 0, 0⟩ ∧
    ∃ d2, nth_weekday_of_month (next_month_year 2024 7).1 (next_month_year 2024 7).2 3 1 =
        some ⟨(next_month_year 2024 7).1, (next_month_year 2024 7).2, d2, 0, 0, 0, 0⟩ ∧
      calculate_next_time ⟨2024, 7, 16, 10, 30, 0, 0⟩ "monthly" (some "第3火") =
        some ⟨(next_month_year 2024 7).1, (next_month_year 2024 7).2, d2, 10, 30, 0, 0⟩ :=
  ⟨by decide, by decide, claim_C7 ⟨2024, 7, 16, 10, 30, 0, 0⟩ (by decide) (by decide)⟩
